import Mathlib

/-!
# Verification of the tokbar usage-aggregation core

Shallow embedding of the usage-aggregation engine of the `tokbar`
repository (`src-tauri/src/{claude,codex,pricing,time_parse,time_range,usage}.rs`)
together with proofs about the claims of its specification.

Modelling conventions:
* `u64` values are `Nat`s below `2 ^ 64`; wrapping addition (`+` in release
  Rust) is `(a + b) % 2 ^ 64`, `saturating_add` is `min (a + b) (2 ^ 64 - 1)`,
  and `saturating_sub` is plain `Nat` subtraction.
* `f64` quantities (costs, pricing rates) are embedded as `ℚ`.
* `serde_json::Value` is the inductive `Json`; text-level JSON parsing
  (`serde_json::from_str`) is a parameter `fromStr : String → Option Json`,
  so theorems hold for every parser.
* The `chrono` date-time primitives consumed by `time_parse.rs` (RFC 3339
  parsing, format-string parsing, local-timezone conversion) form the
  parameter structure `Chrono`; a calendar date is its day number (`Int`)
  and a naive date-time is a day number plus milliseconds of day.
* `HashSet String` is a `List String` used only through membership and
  insertion; `HashMap` datasets are association lists (`List (String × _)`),
  looked up by first key match.  The cost summation over the model map is
  order-insensitive because `ℚ` addition is commutative.
* Rust's stable `sort_by` is embedded as a stable insertion sort with the
  same comparator; the result of a stable sort is uniquely determined by
  the comparator and the input order.
-/

/-! ## u64 arithmetic -/

/-- `2 ^ 64`, the modulus of `u64` arithmetic. -/
def U64MOD : Nat := 18446744073709551616

/-- `u64::MAX`. -/
def U64MAX : Nat := 18446744073709551615

/-- Wrapping `u64` addition (release-mode Rust `+`). -/
def wrapAdd (a b : Nat) : Nat := (a + b) % U64MOD

/-- `u64::saturating_add`. -/
def satAdd (a b : Nat) : Nat := min (a + b) U64MAX

/-- `u64::saturating_sub` (`Nat` subtraction is already saturating). -/
def satSub (a b : Nat) : Nat := a - b

/-! ## JSON values (`serde_json::Value`) -/

/-- A `serde_json::Number`: an unsigned integer, a negative integer, or a
floating-point value (embedded as `ℚ`). -/
inductive JNum where
  | uint : Nat → JNum
  | int : Int → JNum
  | float : ℚ → JNum
deriving DecidableEq

/-- A `serde_json::Value`. -/
inductive Json where
  | null : Json
  | bool : Bool → Json
  | num : JNum → Json
  | str : String → Json
  | arr : List Json → Json
  | obj : List (String × Json) → Json

/-- `serde_json::Number::as_u64`. -/
def JNum.as_u64 : JNum → Option Nat
  | .uint n => if n < U64MOD then some n else none
  | .int i => if 0 ≤ i ∧ i < (U64MOD : Int) then some i.toNat else none
  | .float _ => none

/-- `serde_json::Number::as_i64`. -/
def JNum.as_i64 : JNum → Option Int
  | .uint n => if (n : Int) ≤ 2 ^ 63 - 1 then some n else none
  | .int i => if -(2 ^ 63) ≤ i ∧ i ≤ 2 ^ 63 - 1 then some i else none
  | .float _ => none

/-- `serde_json::Number::as_f64` (every JSON number converts). -/
def JNum.as_f64 : JNum → Option ℚ
  | .uint n => some n
  | .int i => some i
  | .float q => some q

/-- Lookup of a key in a JSON object's field list (first match wins). -/
def objGet (fields : List (String × Json)) (k : String) : Option Json :=
  (fields.find? (fun p => p.1 = k)).map (·.2)

/-- `Value::get(key)`: `None` on non-objects. -/
def Json.get : Json → String → Option Json
  | .obj fields, k => objGet fields k
  | _, _ => none

/-- `Value::as_str`. -/
def Json.as_str : Json → Option String
  | .str s => some s
  | _ => none

/-- `Value::as_object`. -/
def Json.as_object : Json → Option (List (String × Json))
  | .obj fields => some fields
  | _ => none

/-- `Value::as_number`. -/
def Json.as_number : Json → Option JNum
  | .num n => some n
  | _ => none

/-- `Value::as_f64`. -/
def Json.as_f64 (v : Json) : Option ℚ :=
  v.as_number.bind JNum.as_f64

/-- Rust `str::contains(pattern)`: substring containment. -/
def strContains (s pat : String) : Bool :=
  decide (pat.data <:+: s.data)

/-- Rust `str::trim`, implemented structurally on the character list so
that concrete instances reduce inside the kernel. -/
def rustTrim (s : String) : String :=
  ⟨((s.data.dropWhile Char.isWhitespace).reverse.dropWhile
      Char.isWhitespace).reverse⟩

/-- Rust `str::is_empty`. -/
def strIsEmpty (s : String) : Bool :=
  s.data.isEmpty

/-- Rust `f64::round` (half away from zero) on the `ℚ` embedding. -/
def rustRound (q : ℚ) : Int :=
  if 0 ≤ q then ⌊q + 1 / 2⌋ else ⌈q - 1 / 2⌉

/-! ## `chrono` primitives and `time_parse.rs` -/

/-- A `chrono::NaiveDateTime`: a calendar day number and milliseconds of day. -/
structure NaiveDT where
  days : Int
  msOfDay : Int
deriving DecidableEq

/-- `chrono::LocalResult`. -/
inductive LocalResult (α : Type) where
  | single : α → LocalResult α
  | ambiguous : α → α → LocalResult α
  | noResult : LocalResult α

/-- The `chrono` primitives consumed by `time_parse.rs`.  Instants are epoch
milliseconds; calendar dates are day numbers. -/
structure Chrono where
  /-- `DateTime::parse_from_rfc3339`, returning the instant in epoch millis. -/
  parseRfc3339 : String → Option Int
  /-- `Local.from_local_datetime`, returning the resulting instant(s). -/
  fromLocalDatetime : NaiveDT → LocalResult Int
  /-- `NaiveDateTime::parse_from_str fmt input`. -/
  parseNaiveDateTime : String → String → Option NaiveDT
  /-- `NaiveDate::parse_from_str fmt input`, returning the day number. -/
  parseNaiveDate : String → String → Option Int
  /-- Local calendar date (day number) of a UTC instant, `date_naive` of
  `with_timezone(&Local)`. -/
  utcToLocalDate : Int → Int

/-- `time_parse::ParsedTimestamp`. -/
structure ParsedTimestamp where
  millis : Int
  local_date : Int
deriving DecidableEq

/-- `time_parse::from_rfc3339`. -/
def from_rfc3339 (c : Chrono) (value : String) : Option ParsedTimestamp :=
  (c.parseRfc3339 value).map fun m => ⟨m, c.utcToLocalDate m⟩

/-- `time_parse::from_local_naive`. -/
def from_local_naive (c : Chrono) (dt : NaiveDT) : Option ParsedTimestamp :=
  match c.fromLocalDatetime dt with
  | .single m => some ⟨m, dt.days⟩
  | .ambiguous m _ => some ⟨m, dt.days⟩
  | .noResult => none

/-- `time_parse::from_utc_date_only` (`and_hms_opt 0 0 0` always succeeds; a
UTC midnight instant is the day number times the milliseconds of a day). -/
def from_utc_date_only (c : Chrono) (d : Int) : Option ParsedTimestamp :=
  let millis := d * 86400000
  some ⟨millis, c.utcToLocalDate millis⟩

/-- The four no-offset format strings of `parse_js_timestamp`. -/
def LOCAL_DT_FORMATS : List String :=
  ["%Y-%m-%dT%H:%M:%S%.f", "%Y-%m-%dT%H:%M:%S", "%Y-%m-%d %H:%M:%S%.f",
    "%Y-%m-%d %H:%M:%S"]

/-- The format loop of `parse_js_timestamp`: the first format that parses
*and* converts to a local instant wins; a format whose local conversion
fails falls through to the next format. -/
def tryLocalFormats (c : Chrono) (s : String) : List String → Option ParsedTimestamp
  | [] => none
  | fmt :: rest =>
    match c.parseNaiveDateTime fmt s with
    | some dt =>
      match from_local_naive c dt with
      | some parsed => some parsed
      | none => tryLocalFormats c s rest
    | none => tryLocalFormats c s rest

/-- `time_parse::parse_js_timestamp`. -/
def parse_js_timestamp (c : Chrono) (value : String) : Option ParsedTimestamp :=
  let trimmed := rustTrim value
  if strIsEmpty trimmed then none
  else if trimmed.data.all Char.isDigit then none
  else
    match from_rfc3339 c trimmed with
    | some parsed => some parsed
    | none =>
      match tryLocalFormats c trimmed LOCAL_DT_FORMATS with
      | some parsed => some parsed
      | none =>
        match c.parseNaiveDate "%Y-%m-%d" trimmed with
        | some date => from_utc_date_only c date
        | none =>
          match c.parseNaiveDate "%Y/%m/%d" trimmed with
          | some date => from_local_naive c ⟨date, 0⟩
          | none => none

/-! ## Calendar helpers (`NaiveDate::parse_from_str "%Y%m%d"`) -/

/-- Whether `y` is a leap year (proleptic Gregorian). -/
def isLeapYear (y : Int) : Bool :=
  (y % 4 == 0 && y % 100 != 0) || y % 400 == 0

/-- Days in month `m` of year `y`. -/
def daysInMonth (y : Int) (m : Nat) : Nat :=
  if m = 2 then (if isLeapYear y then 29 else 28)
  else if m = 4 ∨ m = 6 ∨ m = 9 ∨ m = 11 then 30
  else 31

/-- Day number of a civil date, days since 1970-01-01 (Howard Hinnant's
`days_from_civil` algorithm). -/
def daysFromCivil (y : Int) (m d : Nat) : Int :=
  let y' : Int := if m ≤ 2 then y - 1 else y
  let era : Int := (if 0 ≤ y' then y' else y' - 399) / 400
  let yoe : Int := y' - era * 400
  let mp : Int := (m + 9 : Int) % 12
  let doy : Int := (153 * mp + 2) / 5 + d - 1
  let doe : Int := yoe * 365 + yoe / 4 - yoe / 100 + doy
  era * 146097 + doe - 719468

/-- Value of a decimal digit character. -/
def digitVal (c : Char) : Nat := c.toNat - 48

/-- `claude::parse_yyyymmdd` / `codex::parse_yyyymmdd`: parse a `YYYYMMDD`
string into the day number of the date. -/
def parse_yyyymmdd (s : String) : Option Int :=
  let cs := s.data
  if cs.length = 8 ∧ cs.all Char.isDigit then
    let y : Int := ((((cs.take 4).map digitVal).foldl (fun a d => a * 10 + d) 0 : Nat) : Int)
    let m : Nat := ((cs.drop 4).take 2).foldl (fun a c => a * 10 + digitVal c) 0
    let d : Nat := ((cs.drop 6).take 2).foldl (fun a c => a * 10 + digitVal c) 0
    if 1 ≤ m ∧ m ≤ 12 ∧ 1 ≤ d ∧ d ≤ daysInMonth y m then
      some (daysFromCivil y m d)
    else none
  else none

/-! ## `pricing.rs` -/

/-- `pricing::LiteLLMModelPricing`: per-token rates, each optional. -/
structure LiteLLMModelPricing where
  input_cost_per_token : Option ℚ := none
  output_cost_per_token : Option ℚ := none
  cache_creation_input_token_cost : Option ℚ := none
  cache_read_input_token_cost : Option ℚ := none
  max_input_tokens : Option Nat := none
  input_cost_per_token_above_200k_tokens : Option ℚ := none
  output_cost_per_token_above_200k_tokens : Option ℚ := none
  cache_creation_input_token_cost_above_200k_tokens : Option ℚ := none
  cache_read_input_token_cost_above_200k_tokens : Option ℚ := none
deriving DecidableEq

/-- The caller-supplied pricing mapping (`HashMap<String, LiteLLMModelPricing>`),
embedded as an association list; iteration order is the list order. -/
abbrev PricingDataset : Type := List (String × LiteLLMModelPricing)

/-- `HashMap::get` on the dataset. -/
def dsGet (ds : PricingDataset) (k : String) : Option LiteLLMModelPricing :=
  ((ds : List (String × LiteLLMModelPricing)).find? (fun p => p.1 = k)).map (·.2)

/-- `pricing::ClaudeTokens`. -/
structure ClaudeTokens where
  input_tokens : Nat := 0
  output_tokens : Nat := 0
  cache_creation_input_tokens : Nat := 0
  cache_read_input_tokens : Nat := 0
deriving DecidableEq

/-- `pricing::CodexTokens`. -/
structure CodexTokens where
  input_tokens : Nat := 0
  cached_input_tokens : Nat := 0
  output_tokens : Nat := 0
deriving DecidableEq

/-- Rust `str::to_ascii_lowercase`. -/
def asciiLower (s : String) : String :=
  ⟨s.data.map Char.toLower⟩

/-- The candidate list built by `find_model_pricing`: the bare model name,
then each provider prefix concatenated with it. -/
def pricingCandidates (model_name : String) (provider_prefixes : List String) :
    List String :=
  model_name :: provider_prefixes.map (fun prefixStr => prefixStr ++ model_name)

/-- The case-insensitive substring fallback scan of `find_model_pricing`:
first mapping entry whose key is a substring of the model name or vice
versa. -/
def substringScan (ds : PricingDataset) (model_name : String) :
    Option LiteLLMModelPricing :=
  let lower := asciiLower model_name
  (ds : List (String × LiteLLMModelPricing)).findSome? fun p =>
    let comparison := asciiLower p.1
    if strContains comparison lower || strContains lower comparison then some p.2
    else none

/-- `pricing::find_model_pricing`. -/
def find_model_pricing (ds : PricingDataset) (model_name : String)
    (provider_prefixes : List String) : Option LiteLLMModelPricing :=
  match (pricingCandidates model_name provider_prefixes).findSome? (dsGet ds) with
  | some pricing => some pricing
  | none => substringScan ds model_name

/-- The per-category tiered cost helper of
`calculate_claude_cost_from_pricing` (threshold 200 000 tokens). -/
def tiered_cost (total_tokens : Nat) (base above : Option ℚ) : ℚ :=
  if total_tokens = 0 then 0
  else if 200000 < total_tokens then
    match above with
    | some above_price =>
      let below_tokens : ℚ := 200000
      let above_tokens : ℚ := (total_tokens - 200000 : Nat)
      let cost := above_tokens * above_price
      match base with
      | some base_price => cost + below_tokens * base_price
      | none => cost
    | none => base.getD 0 * total_tokens
  else base.getD 0 * total_tokens

/-- `pricing::calculate_claude_cost_from_pricing`. -/
def calculate_claude_cost_from_pricing (tokens : ClaudeTokens)
    (pricing : LiteLLMModelPricing) : ℚ :=
  let input := tiered_cost tokens.input_tokens pricing.input_cost_per_token
    pricing.input_cost_per_token_above_200k_tokens
  let output := tiered_cost tokens.output_tokens pricing.output_cost_per_token
    pricing.output_cost_per_token_above_200k_tokens
  let cache_creation := tiered_cost tokens.cache_creation_input_tokens
    pricing.cache_creation_input_token_cost
    pricing.cache_creation_input_token_cost_above_200k_tokens
  let cache_read := tiered_cost tokens.cache_read_input_tokens
    pricing.cache_read_input_token_cost
    pricing.cache_read_input_token_cost_above_200k_tokens
  input + output + cache_creation + cache_read

/-- `pricing::calculate_codex_cost_from_pricing`. -/
def calculate_codex_cost_from_pricing (tokens : CodexTokens)
    (pricing : LiteLLMModelPricing) : ℚ :=
  let non_cached_input_tokens : ℚ :=
    (satSub tokens.input_tokens tokens.cached_input_tokens : Nat)
  let cached_input_tokens : ℚ := tokens.cached_input_tokens
  let output_tokens : ℚ := tokens.output_tokens
  let input_cost := pricing.input_cost_per_token.getD 0
  let cache_read_cost :=
    (pricing.cache_read_input_token_cost.or pricing.input_cost_per_token).getD 0
  let output_cost := pricing.output_cost_per_token.getD 0
  non_cached_input_tokens * input_cost + cached_input_tokens * cache_read_cost
    + output_tokens * output_cost

/-! ## `usage.rs` and `time_range.rs` data -/

/-- `usage::UsageTotals`. -/
structure UsageTotals where
  total_tokens : Nat
  cost_usd : ℚ
deriving DecidableEq

/-- `UsageTotals::default()`. -/
def defaultTotals : UsageTotals := ⟨0, 0⟩

/-- `time_range::DateRange`. -/
structure DateRange where
  since_yyyymmdd : String
  until_yyyymmdd : String
  label : String

/-! ## `claude.rs`: entry parsing -/

/-- The provider-prefix list `CLAUDE_PROVIDER_PREFIXES`. -/
def CLAUDE_PROVIDER_PREFIXES : List String :=
  ["anthropic/", "claude-3-5-", "claude-3-", "claude-", "openai/", "azure/",
    "openrouter/openai/"]

/-- `claude::date_in_range_local`. -/
def date_in_range_local (c : Chrono) (timestamp_rfc3339 : String)
    (since untl : Int) : Bool :=
  match parse_js_timestamp c timestamp_rfc3339 with
  | none => false
  | some parsed => decide (since ≤ parsed.local_date ∧ parsed.local_date ≤ untl)

/-- `claude::as_non_empty_string`. -/
def as_non_empty_string (value : Option Json) : Option String :=
  match value.bind Json.as_str with
  | none => none
  | some raw =>
    let trimmed := rustTrim raw
    if strIsEmpty trimmed then none else some trimmed

/-- `claude::as_u64_token`: accept unsigned integers, non-negative signed
integers, and floats that round to a `u64` within `1e-9`.  Rust casts the
rounded float with a saturating `as u64`, and `u64::MAX as f64` rounds up
to `2 ^ 64`. -/
def as_u64_token (value : Option Json) : Option Nat :=
  match value.bind Json.as_number with
  | none => none
  | some number =>
    match number.as_u64 with
    | some u => some u
    | none =>
      match number.as_i64 with
      | some i => if 0 ≤ i then some i.toNat else none
      | none =>
        match number.as_f64 with
        | some f =>
          if 0 ≤ f ∧ |f - (rustRound f : ℚ)| < 1 / 1000000000
              ∧ (rustRound f : ℚ) ≤ (U64MOD : ℚ) then
            some (min (rustRound f).toNat U64MAX)
          else none
        | none => none

/-- `claude::as_f64`. -/
def claude_as_f64 (value : Option Json) : Option ℚ :=
  value.bind Json.as_f64

/-- `claude::ClaudeUsageEntry`. -/
structure ClaudeUsageEntry where
  timestamp : String
  message_id : Option String
  request_id : Option String
  model : Option String
  input_tokens : Nat
  output_tokens : Nat
  cache_creation_input_tokens : Nat
  cache_read_input_tokens : Nat
  cost_usd : Option ℚ
deriving DecidableEq

/-- `claude::first_u64_token`. -/
def first_u64_token (usage : List (String × Json)) : List String → Option Nat
  | [] => none
  | k :: rest =>
    match as_u64_token (objGet usage k) with
    | some v => some v
    | none => first_u64_token usage rest

/-- `claude::parse_usage_entry`. -/
def parse_usage_entry (value : Json) : Option ClaudeUsageEntry :=
  match as_non_empty_string (value.get "timestamp") with
  | none => none
  | some timestamp =>
    match (value.get "message").bind Json.as_object with
    | none => none
    | some message =>
      match ((objGet message "usage").or (value.get "usage")).bind Json.as_object with
      | none => none
      | some usage =>
        match first_u64_token usage ["input_tokens", "prompt_tokens"] with
        | none => none
        | some input_tokens =>
          match first_u64_token usage ["output_tokens", "completion_tokens"] with
          | none => none
          | some output_tokens =>
            some { timestamp := timestamp
                   message_id := as_non_empty_string (objGet message "id")
                   request_id := as_non_empty_string (value.get "requestId")
                   model := (as_non_empty_string (objGet message "model")).or
                     (as_non_empty_string (value.get "model"))
                   input_tokens := input_tokens
                   output_tokens := output_tokens
                   cache_creation_input_tokens :=
                     (as_u64_token (objGet usage "cache_creation_input_tokens")).getD 0
                   cache_read_input_tokens :=
                     (as_u64_token (objGet usage "cache_read_input_tokens")).getD 0
                   cost_usd := claude_as_f64 (value.get "costUSD") }

/-- `claude::unique_hash`: `message_id ++ ":" ++ request_id` when both are
present. -/
def unique_hash (entry : ClaudeUsageEntry) : Option String :=
  match entry.message_id, entry.request_id with
  | some mid, some rid => some (mid ++ ":" ++ rid)
  | _, _ => none

/-! ## `claude.rs`: file ordering -/

/-- A log file is its list of lines (`BufReader::lines`, read failures
dropped by `flatten`). -/
abbrev LogFile : Type := List String

/-- A line-level JSON parser standing for `serde_json::from_str::<Value>`. -/
abbrev JsonParser : Type := String → Option Json

/-- `claude::earliest_timestamp_millis`: earliest parseable `timestamp`
field over the lines of one file. -/
def earliest_timestamp_millis (c : Chrono) (fromStr : JsonParser)
    (file : LogFile) : Option Int :=
  (file : List String).foldl
    (fun earliest line =>
      if strIsEmpty (rustTrim line) then earliest
      else
        match fromStr line with
        | none => earliest
        | some value =>
          match (value.get "timestamp").bind Json.as_str with
          | none => earliest
          | some timestamp =>
            match parse_js_timestamp c timestamp with
            | none => earliest
            | some parsed =>
              match earliest with
              | some prev => some (min prev parsed.millis)
              | none => some parsed.millis)
    none

/-- The comparator of `sort_files_by_timestamp`: files with no parseable
timestamp sort last. -/
def cmpTs : Option Int → Option Int → Ordering
  | none, none => .eq
  | none, some _ => .gt
  | some _, none => .lt
  | some a, some b => compare a b

/-- Stable insertion of one element into an already-processed list: the new
element goes after every element that does not compare greater. -/
def insertBy {α : Type} (le : α → α → Bool) (a : α) : List α → List α
  | [] => [a]
  | b :: bs => if le b a then b :: insertBy le a bs else a :: b :: bs

/-- Stable sort by a boolean `le`; for a total preorder this produces the
same permutation as any stable sort, in particular Rust's `sort_by`. -/
def stableSortBy {α : Type} (le : α → α → Bool) (l : List α) : List α :=
  l.foldl (fun acc x => insertBy le x acc) []

/-- `claude::sort_files_by_timestamp`: sort ascending by each file's own
earliest parseable timestamp, unparseable-timestamp files last, stably. -/
def sort_files_by_timestamp (c : Chrono) (fromStr : JsonParser)
    (files : List LogFile) : List LogFile :=
  let enriched := files.map fun f => (f, earliest_timestamp_millis c fromStr f)
  (stableSortBy
      (fun a b => match cmpTs a.2 b.2 with | .gt => false | _ => true)
      enriched).map (·.1)

/-! ## `claude.rs`: aggregation -/

/-- State of one chat-log aggregation pass: the seen-key set and the running
totals. -/
structure ClaudeState where
  seen : List String
  totals : UsageTotals
deriving DecidableEq

/-- The per-entry totals update of the chat-log aggregators: the four token
categories are summed with wrapping `u64` `+` and folded into
`total_tokens` with `saturating_add`; an explicit cost is authoritative,
otherwise the pricing resolver is consulted. -/
def addEntryTotals (ds : PricingDataset) (t : UsageTotals)
    (entry : ClaudeUsageEntry) : UsageTotals :=
  let inner := wrapAdd (wrapAdd (wrapAdd entry.input_tokens entry.output_tokens)
    entry.cache_creation_input_tokens) entry.cache_read_input_tokens
  let t := { t with total_tokens := satAdd t.total_tokens inner }
  match entry.cost_usd with
  | some cost_usd => { t with cost_usd := t.cost_usd + cost_usd }
  | none =>
    match entry.model with
    | some model =>
      match find_model_pricing ds model CLAUDE_PROVIDER_PREFIXES with
      | some pricing =>
        let tokens : ClaudeTokens :=
          ⟨entry.input_tokens, entry.output_tokens,
            entry.cache_creation_input_tokens, entry.cache_read_input_tokens⟩
        { t with cost_usd :=
            t.cost_usd + calculate_claude_cost_from_pricing tokens pricing }
      | none => t
    | none => t

/-- The dedup-and-accumulate tail of the chat-log loop body, shared by the
ranged and all-time passes. -/
def claudeEntryStep (ds : PricingDataset) (st : ClaudeState)
    (entry : ClaudeUsageEntry) : ClaudeState :=
  match unique_hash entry with
  | some h =>
    if st.seen.contains h then st
    else ⟨h :: st.seen, addEntryTotals ds st.totals entry⟩
  | none => ⟨st.seen, addEntryTotals ds st.totals entry⟩

/-- The guard chain of the all-time chat-log loop body: skip blank lines,
lines without a `"usage"` substring, unparseable JSON, and schema-invalid
entries. -/
def claudeLineEntry (fromStr : JsonParser) (line : String) :
    Option ClaudeUsageEntry :=
  let trimmed := rustTrim line
  if strIsEmpty trimmed then none
  else if !strContains trimmed "\"usage\"" then none
  else
    match fromStr trimmed with
    | none => none
    | some value => parse_usage_entry value

/-- The guard chain of the ranged chat-log loop body: as `claudeLineEntry`,
then the date-range filter (which precedes deduplication). -/
def claudeLineEntryRanged (c : Chrono) (fromStr : JsonParser)
    (since untl : Int) (line : String) : Option ClaudeUsageEntry :=
  match claudeLineEntry fromStr line with
  | none => none
  | some entry =>
    if date_in_range_local c entry.timestamp since untl then some entry
    else none

/-- One line of the ranged chat-log loop
(`load_claude_totals_from_files_with_pricing`). -/
def claude_ranged_line_step (c : Chrono) (fromStr : JsonParser)
    (ds : PricingDataset) (since untl : Int) (st : ClaudeState)
    (line : String) : ClaudeState :=
  match claudeLineEntryRanged c fromStr since untl line with
  | none => st
  | some entry => claudeEntryStep ds st entry

/-- One line of the all-time chat-log loop
(`load_claude_totals_from_files_all_time_with_pricing`). -/
def claude_all_time_line_step (fromStr : JsonParser) (ds : PricingDataset)
    (st : ClaudeState) (line : String) : ClaudeState :=
  match claudeLineEntry fromStr line with
  | none => st
  | some entry => claudeEntryStep ds st entry

/-- `claude::load_claude_totals_from_files_with_pricing`: parse the range,
sort the files by earliest timestamp, then stream every line through the
ranged loop body. -/
def load_claude_totals_from_files_with_pricing (c : Chrono)
    (fromStr : JsonParser) (files : List LogFile) (range : DateRange)
    (ds : PricingDataset) : UsageTotals :=
  match parse_yyyymmdd range.since_yyyymmdd with
  | none => defaultTotals
  | some since =>
    match parse_yyyymmdd range.until_yyyymmdd with
    | none => defaultTotals
    | some untl =>
      ((sort_files_by_timestamp c fromStr files).foldl
          (fun st file =>
            (file : List String).foldl
              (claude_ranged_line_step c fromStr ds since untl) st)
          ⟨[], defaultTotals⟩).totals

/-- `claude::load_claude_totals_from_files_all_time_with_pricing`: stream
every line of the files in the caller-supplied order (no sorting, no date
filter) through the all-time loop body. -/
def load_claude_totals_from_files_all_time_with_pricing
    (fromStr : JsonParser) (files : List LogFile) (ds : PricingDataset) :
    UsageTotals :=
  ((files : List LogFile).foldl
      (fun st file =>
        (file : List String).foldl (claude_all_time_line_step fromStr ds) st)
      ⟨[], defaultTotals⟩).totals

/-! ## `codex.rs`: usage normalization and delta reconstruction -/

/-- The provider-prefix list `CODEX_PROVIDER_PREFIXES`. -/
def CODEX_PROVIDER_PREFIXES : List String :=
  ["openai/", "azure/", "openrouter/openai/"]

/-- The fixed legacy fallback model `LEGACY_FALLBACK_MODEL`. -/
def LEGACY_FALLBACK_MODEL : String := "gpt-5"

/-- `codex::RawUsage`. -/
structure RawUsage where
  input_tokens : Nat := 0
  cached_input_tokens : Nat := 0
  output_tokens : Nat := 0
  reasoning_output_tokens : Nat := 0
  total_tokens : Nat := 0
deriving DecidableEq

/-- `codex::DeltaUsage`. -/
structure DeltaUsage where
  input_tokens : Nat := 0
  cached_input_tokens : Nat := 0
  output_tokens : Nat := 0
  reasoning_output_tokens : Nat := 0
  total_tokens : Nat := 0
deriving DecidableEq

/-- `codex::parse_local_date_if_in_range`. -/
def parse_local_date_if_in_range (c : Chrono) (timestamp_rfc3339 : String)
    (since untl : Int) : Option Int :=
  match parse_js_timestamp c timestamp_rfc3339 with
  | none => none
  | some parsed =>
    if parsed.local_date < since ∨ untl < parsed.local_date then none
    else some parsed.local_date

/-- `codex::ensure_u64`: like `as_u64_token` but defaulting to `0` instead
of rejecting. -/
def ensure_u64 (value : Option Json) : Nat :=
  match value.bind Json.as_number with
  | none => 0
  | some number =>
    match number.as_u64 with
    | some u => u
    | none =>
      match number.as_i64 with
      | some i => if 0 ≤ i then i.toNat else 0
      | none =>
        match number.as_f64 with
        | some f =>
          if 0 ≤ f ∧ |f - (rustRound f : ℚ)| < 1 / 1000000000
              ∧ (rustRound f : ℚ) ≤ (U64MOD : ℚ) then
            min (rustRound f).toNat U64MAX
          else 0
        | none => 0

/-- `codex::as_non_empty_string` (same definition as the chat-log one). -/
def codex_as_non_empty_string (value : Option Json) : Option String :=
  as_non_empty_string value

/-- `codex::extract_model`: `info.model`, `info.model_name`,
`info.metadata.model`, then `model`, then `metadata.model`. -/
def extract_model (value : Json) : Option String :=
  let fromInfo :=
    match value.get "info" with
    | none => none
    | some info =>
      match codex_as_non_empty_string (info.get "model") with
      | some model => some model
      | none =>
        match codex_as_non_empty_string (info.get "model_name") with
        | some model => some model
        | none =>
          match info.get "metadata" with
          | none => none
          | some metadata => codex_as_non_empty_string (metadata.get "model")
  match fromInfo with
  | some model => some model
  | none =>
    match codex_as_non_empty_string (value.get "model") with
    | some model => some model
    | none =>
      match value.get "metadata" with
      | none => none
      | some metadata => codex_as_non_empty_string (metadata.get "model")

/-- `codex::normalize_raw_usage`: read the token fields of a usage object;
a zero or missing `total_tokens` is replaced by `input + output`
(wrapping `u64` addition). -/
def normalize_raw_usage (value : Option Json) : Option RawUsage :=
  match value.bind Json.as_object with
  | none => none
  | some obj =>
    let input := ensure_u64 (objGet obj "input_tokens")
    let cached := ensure_u64
      ((objGet obj "cached_input_tokens").or (objGet obj "cache_read_input_tokens"))
    let output := ensure_u64 (objGet obj "output_tokens")
    let reasoning := ensure_u64 (objGet obj "reasoning_output_tokens")
    let total := ensure_u64 (objGet obj "total_tokens")
    some { input_tokens := input
           cached_input_tokens := cached
           output_tokens := output
           reasoning_output_tokens := reasoning
           total_tokens := if 0 < total then total else wrapAdd input output }

/-- `codex::subtract_raw_usage`: element-wise saturating subtraction of the
previous cumulative snapshot (or of nothing). -/
def subtract_raw_usage (current : RawUsage) (previous : Option RawUsage) :
    RawUsage :=
  { input_tokens :=
      satSub current.input_tokens ((previous.map (·.input_tokens)).getD 0)
    cached_input_tokens :=
      satSub current.cached_input_tokens ((previous.map (·.cached_input_tokens)).getD 0)
    output_tokens :=
      satSub current.output_tokens ((previous.map (·.output_tokens)).getD 0)
    reasoning_output_tokens :=
      satSub current.reasoning_output_tokens
        ((previous.map (·.reasoning_output_tokens)).getD 0)
    total_tokens :=
      satSub current.total_tokens ((previous.map (·.total_tokens)).getD 0) }

/-- `codex::convert_to_delta`: recompute a zero total as `input + output`
(wrapping) and clamp cached tokens to at most the input tokens. -/
def convert_to_delta (raw : RawUsage) : DeltaUsage :=
  { input_tokens := raw.input_tokens
    cached_input_tokens := min raw.cached_input_tokens raw.input_tokens
    output_tokens := raw.output_tokens
    reasoning_output_tokens := raw.reasoning_output_tokens
    total_tokens :=
      if 0 < raw.total_tokens then raw.total_tokens
      else wrapAdd raw.input_tokens raw.output_tokens }

/-- `codex::model_alias`: the static alias table. -/
def model_alias (model : String) : Option String :=
  if model = "gpt-5-codex" then some "gpt-5" else none

/-- `codex::pricing_for_model`: the full lookup (exact, prefixed, substring)
on the model name, and only if that fails, the same lookup on the alias. -/
def pricing_for_model (ds : PricingDataset) (model : String) :
    Option LiteLLMModelPricing :=
  match find_model_pricing ds model CODEX_PROVIDER_PREFIXES with
  | some pricing => some pricing
  | none =>
    (model_alias model).bind fun aliasName =>
      find_model_pricing ds aliasName CODEX_PROVIDER_PREFIXES

/-- `codex::cost_for_tokens`. -/
def cost_for_tokens (tokens : CodexTokens) (model : String)
    (ds : PricingDataset) : ℚ :=
  match pricing_for_model ds model with
  | none => 0
  | some pricing => calculate_codex_cost_from_pricing tokens pricing

/-! ## `codex.rs`: aggregation -/

/-- Per-file state of one exec-session pass: the previous cumulative
snapshot, the currently declared model, and whether it is the legacy
fallback. -/
structure CodexFileState where
  previous_totals : Option RawUsage
  current_model : Option String
  current_model_is_fallback : Bool
deriving DecidableEq

/-- The fresh per-file state. -/
def initCodexFileState : CodexFileState := ⟨none, none, false⟩

/-- Cross-file accumulator of one exec-session pass: the token total and the
per-model token map (`HashMap<String, CodexTokens>` as an association
list, inserted at first use). -/
structure CodexAccum where
  total_tokens : Nat
  model_tokens : List (String × CodexTokens)
deriving DecidableEq

/-- `entry.or_default()` followed by the three saturating adds. -/
def addCodexTokens (tk : CodexTokens) (delta : DeltaUsage) : CodexTokens :=
  { input_tokens := satAdd tk.input_tokens delta.input_tokens
    cached_input_tokens := satAdd tk.cached_input_tokens delta.cached_input_tokens
    output_tokens := satAdd tk.output_tokens delta.output_tokens }

/-- Update the per-model token map at `model` with `delta`. -/
def updateModelTokens (m : List (String × CodexTokens)) (model : String)
    (delta : DeltaUsage) : List (String × CodexTokens) :=
  match m with
  | [] => [(model, addCodexTokens {} delta)]
  | (k, tk) :: rest =>
    if k = model then (k, addCodexTokens tk delta) :: rest
    else (k, tk) :: updateModelTokens rest model delta

/-- Fold one counted delta into the accumulator; the model map is only
maintained when cost computation was requested (non-empty dataset). -/
def codexAccAdd (ds : PricingDataset) (acc : CodexAccum) (delta : DeltaUsage)
    (model : String) : CodexAccum :=
  { total_tokens := satAdd acc.total_tokens delta.total_tokens
    model_tokens :=
      if (ds : List (String × LiteLLMModelPricing)).isEmpty then acc.model_tokens
      else updateModelTokens acc.model_tokens model delta }

/-- The `token_count` core shared by the ranged and all-time exec-session
loops: usage extraction, delta reconstruction, previous-snapshot update,
zero-delta discard, and model resolution.  Returns the updated file state
and, when the event is to be counted, its delta and model. -/
def codexTokenCountCore (fs : CodexFileState) (payload : Json) :
    CodexFileState × Option (DeltaUsage × String) :=
  let info := (payload.get "info").getD Json.null
  let last_usage := normalize_raw_usage (info.get "last_token_usage")
  let total_usage := normalize_raw_usage (info.get "total_token_usage")
  let raw :=
    match last_usage with
    | some l => some l
    | none =>
      match total_usage with
      | some t => some (subtract_raw_usage t fs.previous_totals)
      | none => none
  let previous' :=
    match total_usage with
    | some t => some t
    | none => fs.previous_totals
  match raw with
  | none => ({ fs with previous_totals := previous' }, none)
  | some raw =>
    let delta := convert_to_delta raw
    if delta.input_tokens = 0 ∧ delta.cached_input_tokens = 0
        ∧ delta.output_tokens = 0 ∧ delta.reasoning_output_tokens = 0 then
      ({ fs with previous_totals := previous' }, none)
    else
      match extract_model payload with
      | some extracted =>
        (⟨previous', some extracted, false⟩, some (delta, extracted))
      | none =>
        match fs.current_model with
        | some current =>
          (⟨previous', some current, fs.current_model_is_fallback⟩,
            some (delta, current))
        | none =>
          (⟨previous', some LEGACY_FALLBACK_MODEL, true⟩,
            some (delta, LEGACY_FALLBACK_MODEL))

/-- The guard chain of the exec-session loop body: skip blank lines, lines
with neither an `"event_msg"` nor a `"turn_context"` substring, and
unparseable JSON; read the entry type, payload and optional timestamp. -/
def codexLineView (fromStr : JsonParser) (line : String) :
    Option (String × Json × Option String) :=
  let trimmed := rustTrim line
  if strIsEmpty trimmed then none
  else if !strContains trimmed "\"event_msg\""
      && !strContains trimmed "\"turn_context\"" then none
  else
    match fromStr trimmed with
    | none => none
    | some entry =>
      some (((entry.get "type").bind Json.as_str).getD "",
        (entry.get "payload").getD Json.null,
        (entry.get "timestamp").bind Json.as_str)

/-- One line of the ranged exec-session loop
(`load_codex_totals_from_files_with_pricing`): events without a timestamp
are skipped before any state update; events whose local date is outside
the range still update the per-file state but are not counted. -/
def codex_ranged_line_step (c : Chrono) (fromStr : JsonParser)
    (ds : PricingDataset) (since untl : Int)
    (st : CodexFileState × CodexAccum) (line : String) :
    CodexFileState × CodexAccum :=
  match codexLineView fromStr line with
  | none => st
  | some (entry_type, payload, timestamp) =>
    if entry_type = "turn_context" then
      match extract_model payload with
      | some model =>
        (⟨st.1.previous_totals, some model, false⟩, st.2)
      | none => st
    else if entry_type ≠ "event_msg" then st
    else if ((payload.get "type").bind Json.as_str) ≠ some "token_count" then st
    else
      match timestamp with
      | none => st
      | some ts =>
        match codexTokenCountCore st.1 payload with
        | (fs', none) => (fs', st.2)
        | (fs', some (delta, model)) =>
          if (parse_local_date_if_in_range c ts since untl).isNone then (fs', st.2)
          else (fs', codexAccAdd ds st.2 delta model)

/-- One line of the all-time exec-session loop
(`load_codex_totals_from_files_all_time_with_pricing`): no timestamp is
consulted. -/
def codex_all_time_line_step (fromStr : JsonParser) (ds : PricingDataset)
    (st : CodexFileState × CodexAccum) (line : String) :
    CodexFileState × CodexAccum :=
  match codexLineView fromStr line with
  | none => st
  | some (entry_type, payload, _) =>
    if entry_type = "turn_context" then
      match extract_model payload with
      | some model =>
        (⟨st.1.previous_totals, some model, false⟩, st.2)
      | none => st
    else if entry_type ≠ "event_msg" then st
    else if ((payload.get "type").bind Json.as_str) ≠ some "token_count" then st
    else
      match codexTokenCountCore st.1 payload with
      | (fs', none) => (fs', st.2)
      | (fs', some (delta, model)) => (fs', codexAccAdd ds st.2 delta model)

/-- The cost finalization of both exec-session loops: with a non-empty
dataset, sum the per-model costs; otherwise the cost stays `0`. -/
def codexFinalize (ds : PricingDataset) (acc : CodexAccum) : UsageTotals :=
  { total_tokens := acc.total_tokens
    cost_usd :=
      if (ds : List (String × LiteLLMModelPricing)).isEmpty then 0
      else acc.model_tokens.foldl
        (fun cost p => cost + cost_for_tokens p.2 p.1 ds) 0 }

/-- The all-time exec-session accumulator over all files (fresh per-file
state each file). -/
def codexAllTimeAccum (fromStr : JsonParser) (files : List LogFile)
    (ds : PricingDataset) : CodexAccum :=
  (files : List LogFile).foldl
    (fun acc file =>
      ((file : List String).foldl (codex_all_time_line_step fromStr ds)
        (initCodexFileState, acc)).2)
    ⟨0, []⟩

/-- `codex::load_codex_totals_from_files_with_pricing`. -/
def load_codex_totals_from_files_with_pricing (c : Chrono)
    (fromStr : JsonParser) (files : List LogFile) (range : DateRange)
    (ds : PricingDataset) : UsageTotals :=
  match parse_yyyymmdd range.since_yyyymmdd with
  | none => defaultTotals
  | some since =>
    match parse_yyyymmdd range.until_yyyymmdd with
    | none => defaultTotals
    | some untl =>
      codexFinalize ds
        ((files : List LogFile).foldl
          (fun acc file =>
            ((file : List String).foldl
              (codex_ranged_line_step c fromStr ds since untl)
              (initCodexFileState, acc)).2)
          ⟨0, []⟩)

/-- `codex::load_codex_totals_from_files_all_time_with_pricing`. -/
def load_codex_totals_from_files_all_time_with_pricing (fromStr : JsonParser)
    (files : List LogFile) (ds : PricingDataset) : UsageTotals :=
  codexFinalize ds (codexAllTimeAccum fromStr files ds)

/-! ## Reference descriptions of the chat-log pass -/

/-- Keep each entry unless it carries a dedupe key and an entry with the
same key occurred earlier (or in `seen`): the first occurrence of every
key is kept, and entries without a key are always kept. -/
def firstOccurrences (seen : List String) :
    List ClaudeUsageEntry → List ClaudeUsageEntry
  | [] => []
  | e :: rest =>
    match unique_hash e with
    | none => e :: firstOccurrences seen rest
    | some h =>
      if seen.contains h then firstOccurrences seen rest
      else e :: firstOccurrences (h :: seen) rest

/-- Fold a list of entries into running totals. -/
def totalsFromEntries (ds : PricingDataset) (init : UsageTotals)
    (l : List ClaudeUsageEntry) : UsageTotals :=
  l.foldl (addEntryTotals ds) init

/-- All valid entries of a list of files, in processing order (all-time
guards). -/
def claudeEntries (fromStr : JsonParser) (files : List LogFile) :
    List ClaudeUsageEntry :=
  (files : List LogFile).flatMap
    (fun file => (file : List String).filterMap (claudeLineEntry fromStr))

/-- All valid in-range entries of a list of files, in processing order
(ranged guards). -/
def claudeEntriesRanged (c : Chrono) (fromStr : JsonParser) (since untl : Int)
    (files : List LogFile) : List ClaudeUsageEntry :=
  (files : List LogFile).flatMap
    (fun file => (file : List String).filterMap
      (claudeLineEntryRanged c fromStr since untl))

/-! ## Characterization of the chat-log aggregation loops -/

theorem claudeEntryStep_foldl (ds : PricingDataset)
    (l : List ClaudeUsageEntry) (st : ClaudeState) :
    l.foldl (claudeEntryStep ds) st =
      ⟨((firstOccurrences st.seen l).filterMap unique_hash).reverse ++ st.seen,
        totalsFromEntries ds st.totals (firstOccurrences st.seen l)⟩ := by
  induction l generalizing st with
  | nil => simp [firstOccurrences, totalsFromEntries]
  | cons e rest ih =>
    rcases st with ⟨seen, totals⟩
    simp only [List.foldl_cons, claudeEntryStep, firstOccurrences]
    cases hh : unique_hash e with
    | none =>
      rw [ih]
      simp [firstOccurrences, totalsFromEntries, List.filterMap_cons, hh]
    | some h =>
      by_cases hc : seen.contains h
      · simp only [hh, hc, if_pos]
        rw [ih]
      · simp only [hh, hc, if_neg, Bool.false_eq_true, not_false_iff]
        rw [ih]
        simp [totalsFromEntries, List.filterMap_cons, hh]

theorem claude_ranged_file_foldl (c : Chrono) (fromStr : JsonParser)
    (ds : PricingDataset) (since untl : Int) (file : List String)
    (st : ClaudeState) :
    file.foldl (claude_ranged_line_step c fromStr ds since untl) st =
      (file.filterMap (claudeLineEntryRanged c fromStr since untl)).foldl
        (claudeEntryStep ds) st := by
  induction file generalizing st with
  | nil => rfl
  | cons line rest ih =>
    simp only [List.foldl_cons, List.filterMap_cons, claude_ranged_line_step]
    cases claudeLineEntryRanged c fromStr since untl line with
    | none => exact ih st
    | some e => exact ih (claudeEntryStep ds st e)

theorem claude_all_time_file_foldl (fromStr : JsonParser)
    (ds : PricingDataset) (file : List String) (st : ClaudeState) :
    file.foldl (claude_all_time_line_step fromStr ds) st =
      (file.filterMap (claudeLineEntry fromStr)).foldl
        (claudeEntryStep ds) st := by
  induction file generalizing st with
  | nil => rfl
  | cons line rest ih =>
    simp only [List.foldl_cons, List.filterMap_cons, claude_all_time_line_step]
    cases claudeLineEntry fromStr line with
    | none => exact ih st
    | some e => exact ih (claudeEntryStep ds st e)

theorem claude_ranged_files_foldl (c : Chrono) (fromStr : JsonParser)
    (ds : PricingDataset) (since untl : Int) (files : List LogFile)
    (st : ClaudeState) :
    files.foldl
        (fun st file => (file : List String).foldl
          (claude_ranged_line_step c fromStr ds since untl) st) st =
      (claudeEntriesRanged c fromStr since untl files).foldl
        (claudeEntryStep ds) st := by
  induction files generalizing st with
  | nil => rfl
  | cons file rest ih =>
    simp only [List.foldl_cons, claudeEntriesRanged, List.flatMap_cons,
      List.foldl_append]
    rw [claude_ranged_file_foldl, ih]
    rfl

theorem claude_all_time_files_foldl (fromStr : JsonParser)
    (ds : PricingDataset) (files : List LogFile) (st : ClaudeState) :
    files.foldl
        (fun st file => (file : List String).foldl
          (claude_all_time_line_step fromStr ds) st) st =
      (claudeEntries fromStr files).foldl (claudeEntryStep ds) st := by
  induction files generalizing st with
  | nil => rfl
  | cons file rest ih =>
    simp only [List.foldl_cons, claudeEntries, List.flatMap_cons,
      List.foldl_append]
    rw [claude_all_time_file_foldl, ih]
    rfl

theorem claude_all_time_char (fromStr : JsonParser) (files : List LogFile)
    (ds : PricingDataset) :
    load_claude_totals_from_files_all_time_with_pricing fromStr files ds =
      totalsFromEntries ds defaultTotals
        (firstOccurrences [] (claudeEntries fromStr files)) := by
  unfold load_claude_totals_from_files_all_time_with_pricing
  rw [claude_all_time_files_foldl, claudeEntryStep_foldl]

theorem claude_ranged_char (c : Chrono) (fromStr : JsonParser)
    (files : List LogFile) (range : DateRange) (ds : PricingDataset)
    (since untl : Int) (hs : parse_yyyymmdd range.since_yyyymmdd = some since)
    (hu : parse_yyyymmdd range.until_yyyymmdd = some untl) :
    load_claude_totals_from_files_with_pricing c fromStr files range ds =
      totalsFromEntries ds defaultTotals
        (firstOccurrences []
          (claudeEntriesRanged c fromStr since untl
            (sort_files_by_timestamp c fromStr files))) := by
  unfold load_claude_totals_from_files_with_pricing
  rw [hs, hu]
  dsimp only
  rw [claude_ranged_files_foldl, claudeEntryStep_foldl]

theorem firstOccurrences_filter_keyless (seen : List String)
    (l : List ClaudeUsageEntry) :
    (firstOccurrences seen l).filter (fun e => (unique_hash e).isNone) =
      l.filter (fun e => (unique_hash e).isNone) := by
  induction l generalizing seen with
  | nil => rfl
  | cons e rest ih =>
    simp only [firstOccurrences]
    cases hh : unique_hash e with
    | none =>
      simp [List.filter_cons, hh, ih]
    | some h =>
      by_cases hc : h ∈ seen
      · simp [List.filter_cons, hh, hc, ih]
      · simp [List.filter_cons, hh, hc, ih]

/-! ## C2: tiered chat-log costing -/

/-- Per-category cost as the specification words it: base rate times
tokens, except above 200 000 tokens with an above-threshold rate, where
the first 200 000 tokens are billed at the base rate (0 if absent) and
the rest at the override rate. -/
def claimCategoryCost (tokens : Nat) (base above : Option ℚ) : ℚ :=
  match above with
  | some a =>
    if 200000 < tokens then
      base.getD 0 * 200000 + a * ((tokens - 200000 : Nat) : ℚ)
    else base.getD 0 * (tokens : ℚ)
  | none => base.getD 0 * (tokens : ℚ)

/-- Whole-entry cost as the specification words it: the sum of the four
per-category costs. -/
def claimClaudeCost (tokens : ClaudeTokens) (pricing : LiteLLMModelPricing) : ℚ :=
  claimCategoryCost tokens.input_tokens pricing.input_cost_per_token
      pricing.input_cost_per_token_above_200k_tokens
    + claimCategoryCost tokens.output_tokens pricing.output_cost_per_token
      pricing.output_cost_per_token_above_200k_tokens
    + claimCategoryCost tokens.cache_creation_input_tokens
      pricing.cache_creation_input_token_cost
      pricing.cache_creation_input_token_cost_above_200k_tokens
    + claimCategoryCost tokens.cache_read_input_tokens
      pricing.cache_read_input_token_cost
      pricing.cache_read_input_token_cost_above_200k_tokens

theorem tiered_cost_eq_claim (t : Nat) (base above : Option ℚ) :
    tiered_cost t base above = claimCategoryCost t base above := by
  unfold tiered_cost claimCategoryCost
  rcases above with _ | a <;> rcases base with _ | b <;>
    by_cases h0 : t = 0 <;> simp [h0] <;>
    by_cases ht : 200000 < t <;> simp [ht] <;> ring

/-- The pricing record of the first tiered example: base input rate `3e-6`,
above-threshold input rate `6e-6`. -/
def tieredPricingEx1 : LiteLLMModelPricing :=
  { input_cost_per_token := some (3 / 1000000)
    input_cost_per_token_above_200k_tokens := some (6 / 1000000) }

/-- The pricing record of the second tiered example: no base input rate,
above-threshold input rate `6e-6`. -/
def tieredPricingEx2 : LiteLLMModelPricing :=
  { input_cost_per_token_above_200k_tokens := some (6 / 1000000) }

/-- C2: for an entry without an explicit cost, the chat-log cost formula
bills each of the four token categories independently at `base_rate ×
tokens`, except above 200 000 tokens with an above-threshold rate, where
the first 200 000 tokens are billed at the base rate (0 if absent) and
the tokens beyond at the override rate; with base `3e-6`, override `6e-6`
and 300 000 input tokens the cost is `1.2` within `1e-9`, and with the
base rate absent it is `0.6`. -/
theorem claude_cost_matches_tiered_spec :
    (∀ (tokens : ClaudeTokens) (pricing : LiteLLMModelPricing),
      calculate_claude_cost_from_pricing tokens pricing =
        claimClaudeCost tokens pricing)
    ∧ |calculate_claude_cost_from_pricing ⟨300000, 0, 0, 0⟩ tieredPricingEx1
        - 12 / 10| < 1 / 1000000000
    ∧ |calculate_claude_cost_from_pricing ⟨300000, 0, 0, 0⟩ tieredPricingEx2
        - 6 / 10| < 1 / 1000000000 := by
  refine ⟨fun tokens pricing => ?_, ?_, ?_⟩
  · unfold calculate_claude_cost_from_pricing claimClaudeCost
    rw [tiered_cost_eq_claim, tiered_cost_eq_claim, tiered_cost_eq_claim,
      tiered_cost_eq_claim]
  · norm_num [calculate_claude_cost_from_pricing, tiered_cost, tieredPricingEx1]
  · norm_num [calculate_claude_cost_from_pricing, tiered_cost, tieredPricingEx2]

/-! ## C7: timestamp parsing -/

theorem tryLocalFormats_head_single (c : Chrono) (s fmt : String)
    (rest : List String) (dt : NaiveDT) (m : Int)
    (hp : c.parseNaiveDateTime fmt s = some dt)
    (hl : c.fromLocalDatetime dt = .single m) :
    tryLocalFormats c s (fmt :: rest) = some ⟨m, dt.days⟩ := by
  simp [tryLocalFormats, hp, from_local_naive, hl]

/-- C7: the timestamp parser maps an offset-qualified date-time to its
absolute instant plus the viewer-local calendar date; a date-time without
offset is interpreted as local time (the naive date is kept as the local
date); a bare `YYYY-MM-DD` becomes UTC midnight of that date; a
`YYYY/MM/DD` becomes local midnight; any string whose trimmed form
consists entirely of ASCII digits is rejected, as is every form no parser
accepts.  Stated for every `Chrono` primitive assignment. -/
theorem parse_js_timestamp_spec (c : Chrono) (s : String) :
    ((rustTrim s).data.all Char.isDigit = true → parse_js_timestamp c s = none)
    ∧ (∀ m, (rustTrim s).data.all Char.isDigit = false →
        c.parseRfc3339 (rustTrim s) = some m →
        parse_js_timestamp c s = some ⟨m, c.utcToLocalDate m⟩)
    ∧ (∀ p, (rustTrim s).data.all Char.isDigit = false →
        c.parseRfc3339 (rustTrim s) = none →
        tryLocalFormats c (rustTrim s) LOCAL_DT_FORMATS = some p →
        parse_js_timestamp c s = some p)
    ∧ (∀ d, (rustTrim s).data.all Char.isDigit = false →
        c.parseRfc3339 (rustTrim s) = none →
        tryLocalFormats c (rustTrim s) LOCAL_DT_FORMATS = none →
        c.parseNaiveDate "%Y-%m-%d" (rustTrim s) = some d →
        parse_js_timestamp c s =
          some ⟨d * 86400000, c.utcToLocalDate (d * 86400000)⟩)
    ∧ (∀ d, (rustTrim s).data.all Char.isDigit = false →
        c.parseRfc3339 (rustTrim s) = none →
        tryLocalFormats c (rustTrim s) LOCAL_DT_FORMATS = none →
        c.parseNaiveDate "%Y-%m-%d" (rustTrim s) = none →
        c.parseNaiveDate "%Y/%m/%d" (rustTrim s) = some d →
        parse_js_timestamp c s = from_local_naive c ⟨d, 0⟩)
    ∧ ((rustTrim s).data.all Char.isDigit = false →
        c.parseRfc3339 (rustTrim s) = none →
        tryLocalFormats c (rustTrim s) LOCAL_DT_FORMATS = none →
        c.parseNaiveDate "%Y-%m-%d" (rustTrim s) = none →
        c.parseNaiveDate "%Y/%m/%d" (rustTrim s) = none →
        parse_js_timestamp c s = none) := by
  have hne : (rustTrim s).data.all Char.isDigit = false →
      strIsEmpty (rustTrim s) = false := by
    intro hd
    cases he : (rustTrim s).data with
    | nil => rw [he] at hd; simp at hd
    | cons a l => simp [strIsEmpty, he]
  refine ⟨?_, ?_, ?_, ?_, ?_, ?_⟩
  · intro hd
    unfold parse_js_timestamp
    by_cases he : strIsEmpty (rustTrim s) = true <;> simp [he, hd]
  · intro m hd hr
    unfold parse_js_timestamp
    simp [hne hd, hd, from_rfc3339, hr]
  · intro p hd hr ht
    unfold parse_js_timestamp
    simp [hne hd, hd, from_rfc3339, hr, ht]
  · intro d hd hr ht h1
    unfold parse_js_timestamp
    simp [hne hd, hd, from_rfc3339, hr, ht, h1, from_utc_date_only]
  · intro d hd hr ht h1 h2
    unfold parse_js_timestamp
    simp [hne hd, hd, from_rfc3339, hr, ht, h1, h2]
  · intro hd hr ht h1 h2
    unfold parse_js_timestamp
    simp [hne hd, hd, from_rfc3339, hr, ht, h1, h2]

/-- A concrete `Chrono` instance for exercising the timestamp-parser
characterization. -/
def chronoC7 : Chrono :=
  { parseRfc3339 := fun s => if s = "2026-02-06T00:00:00Z" then some 1770336000000 else none
    fromLocalDatetime := fun _ => .noResult
    parseNaiveDateTime := fun _ _ => none
    parseNaiveDate := fun _ _ => none
    utcToLocalDate := fun _ => 20490 }

theorem parse_js_timestamp_spec_witness :
    parse_js_timestamp chronoC7 "1700000000000" = none
    ∧ parse_js_timestamp chronoC7 "2026-02-06T00:00:00Z" =
        some ⟨1770336000000, 20490⟩
    ∧ parse_js_timestamp chronoC7 "not-a-date" = none :=
  ⟨(parse_js_timestamp_spec chronoC7 "1700000000000").1 (by decide),
    (parse_js_timestamp_spec chronoC7 "2026-02-06T00:00:00Z").2.1 1770336000000
      (by decide) (by decide),
    (parse_js_timestamp_spec chronoC7 "not-a-date").2.2.2.2.2 (by decide)
      (by decide) (by decide) (by decide) (by decide)⟩

/-! ## C6: pricing resolution order -/

/-- The exec-session resolution procedure as the claim words it: exact and
prefixed lookups on the model name, then the alias table (with its own
exact and prefixed lookups), and only then the substring fallback. -/
def claimAliasBeforeSubstring (ds : PricingDataset) (model : String) :
    Option LiteLLMModelPricing :=
  match (pricingCandidates model CODEX_PROVIDER_PREFIXES).findSome? (dsGet ds) with
  | some pricing => some pricing
  | none =>
    match (model_alias model).bind
        (fun a => (pricingCandidates a CODEX_PROVIDER_PREFIXES).findSome? (dsGet ds)) with
    | some pricing => some pricing
    | none => substringScan ds model

/-- First substring-matching entry of the counterexample dataset. -/
def pricingCexA : LiteLLMModelPricing := { input_cost_per_token := some 1 }

/-- Prefixed-alias entry of the counterexample dataset. -/
def pricingCexB : LiteLLMModelPricing := { input_cost_per_token := some 2 }

/-- A dataset on which the code's order (substring before alias) and the
claim's order (alias before substring) disagree for `gpt-5-codex`. -/
def datasetC6 : PricingDataset :=
  [("mini-gpt-5-codex-x", pricingCexA), ("openai/gpt-5", pricingCexB)]

/-- C6 counterexample: the code resolves `gpt-5-codex` through the
case-insensitive substring fallback (hitting `mini-gpt-5-codex-x`) before
ever consulting the alias table, while the claim's procedure (alias
before substring fallback) resolves it to the `openai/gpt-5` record. -/
theorem pricing_alias_order_counterexample :
    pricing_for_model datasetC6 "gpt-5-codex" = some pricingCexA
    ∧ claimAliasBeforeSubstring datasetC6 "gpt-5-codex" = some pricingCexB
    ∧ pricingCexA ≠ pricingCexB := by
  refine ⟨rfl, rfl, ?_⟩
  intro h
  have h2 := congrArg LiteLLMModelPricing.input_cost_per_token h
  simp [pricingCexA, pricingCexB] at h2

/-- C6 amended: resolution tries the bare model name and then each
prefixed name, returning the first exact hit, and only then the
case-insensitive substring scan (first match in mapping order); the
exec-session source consults its static alias table only after the full
lookup on the original name — including the substring fallback — has
failed, rather than before the substring fallback. -/
theorem pricing_resolution_order :
    (∀ (ds : PricingDataset) (model : String) (prefixes : List String),
      find_model_pricing ds model prefixes =
        match (pricingCandidates model prefixes).findSome? (dsGet ds) with
        | some pricing => some pricing
        | none => substringScan ds model)
    ∧ (∀ (ds : PricingDataset) (model : String) (p : LiteLLMModelPricing),
        find_model_pricing ds model CODEX_PROVIDER_PREFIXES = some p →
        pricing_for_model ds model = some p)
    ∧ (∀ (ds : PricingDataset) (model : String),
        find_model_pricing ds model CODEX_PROVIDER_PREFIXES = none →
        pricing_for_model ds model =
          (model_alias model).bind
            (fun a => find_model_pricing ds a CODEX_PROVIDER_PREFIXES)) := by
  refine ⟨fun ds model prefixes => rfl, ?_, ?_⟩
  · intro ds model p h
    unfold pricing_for_model
    rw [h]
  · intro ds model h
    unfold pricing_for_model
    rw [h]

/-- A dataset where only the alias's prefixed name is present. -/
def datasetC6w : PricingDataset := [("openai/gpt-5", pricingCexB)]

theorem pricing_resolution_order_witness :
    find_model_pricing datasetC6w "gpt-5-codex" CODEX_PROVIDER_PREFIXES = none
    ∧ pricing_for_model datasetC6w "gpt-5-codex" =
        (model_alias "gpt-5-codex").bind
          (fun a => find_model_pricing datasetC6w a CODEX_PROVIDER_PREFIXES) :=
  ⟨rfl, pricing_resolution_order.2.2 datasetC6w "gpt-5-codex" rfl⟩

/-! ## C3: per-entry token sums wrap instead of saturating -/

/-- A log line holding the overflowing entry (its text only needs to
contain the `"usage"` needle; the JSON parser below maps it to the
value). -/
def lineOverflow : String := "overflow \"usage\" entry"

/-- A schema-valid chat-log entry with `input_tokens = u64::MAX` and
`output_tokens = 1`. -/
def jsonOverflow : Json :=
  .obj [("timestamp", .str "t"),
    ("message", .obj [("id", .str "m1"),
      ("usage", .obj [("input_tokens", .num (.uint 18446744073709551615)),
        ("output_tokens", .num (.uint 1))])]),
    ("requestId", .str "r1")]

/-- Concrete JSON parser for the overflow line. -/
def fromStrOverflow : JsonParser :=
  fun s => if s = lineOverflow then some jsonOverflow else none

/-- C3: the aggregated `total_tokens` is NOT the saturating sum of the
counted categories: the per-entry sum `input + output + cache_creation +
cache_read` uses plain `u64` addition (wrapping in release builds,
panicking in debug builds) before the saturating accumulate, so the entry
`{input: u64::MAX, output: 1}` contributes `0` tokens where the claimed
saturating sum is `u64::MAX`; the exec-session `convert_to_delta` wraps
the same way when recomputing a zero total.  This contradicts the spec's
stated overflow-safety design, which the surrounding `saturating_add`
calls show to be the intent. -/
theorem token_sum_wraps_not_saturates :
    (load_claude_totals_from_files_all_time_with_pricing fromStrOverflow
        [[lineOverflow]] []).total_tokens = 0
    ∧ satAdd (satAdd (satAdd (satAdd 0 18446744073709551615) 1) 0) 0 =
        18446744073709551615
    ∧ (load_claude_totals_from_files_all_time_with_pricing fromStrOverflow
        [[lineOverflow]] []).total_tokens ≠
        satAdd (satAdd (satAdd (satAdd 0 18446744073709551615) 1) 0) 0
    ∧ (convert_to_delta
        { input_tokens := 18446744073709551615, output_tokens := 1 }).total_tokens
        = 0 := by
  refine ⟨by decide, by decide, ?_, by decide⟩
  decide

/-! ## C1: dedup order and file sorting -/

/-- Two log lines holding the same dedupe key `(m1, r1)`. -/
def lineDupLate : String := "late \"usage\" entry"

/-- The chronologically-earlier duplicate. -/
def lineDupEarly : String := "early \"usage\" entry"

/-- The later duplicate: timestamp `TL`, 1000 tokens. -/
def jsonDupLate : Json :=
  .obj [("timestamp", .str "TL"),
    ("message", .obj [("id", .str "m1"),
      ("usage", .obj [("input_tokens", .num (.uint 999)),
        ("output_tokens", .num (.uint 1))])]),
    ("requestId", .str "r1")]

/-- The earlier duplicate: timestamp `TE`, 150 tokens. -/
def jsonDupEarly : Json :=
  .obj [("timestamp", .str "TE"),
    ("message", .obj [("id", .str "m1"),
      ("usage", .obj [("input_tokens", .num (.uint 100)),
        ("output_tokens", .num (.uint 50))])]),
    ("requestId", .str "r1")]

/-- Concrete JSON parser for the duplicate lines. -/
def fromStrDup : JsonParser :=
  fun s =>
    if s = lineDupLate then some jsonDupLate
    else if s = lineDupEarly then some jsonDupEarly
    else none

/-- Concrete chrono primitives: `TE` parses to instant 1000, `TL` to
instant 2000, both on local day 20490 (2026-02-06). -/
def chronoDup : Chrono :=
  { parseRfc3339 := fun s =>
      if s = "TE" then some 1000 else if s = "TL" then some 2000 else none
    fromLocalDatetime := fun _ => .noResult
    parseNaiveDateTime := fun _ _ => none
    parseNaiveDate := fun _ _ => none
    utcToLocalDate := fun _ => 20490 }

/-- The all-time aggregation as the claim words it: first occurrence wins
*after* sorting the files ascending by earliest parseable timestamp. -/
def claimAllTimeSorted (c : Chrono) (fromStr : JsonParser)
    (files : List LogFile) (ds : PricingDataset) : UsageTotals :=
  totalsFromEntries ds defaultTotals
    (firstOccurrences []
      (claudeEntries fromStr (sort_files_by_timestamp c fromStr files)))

/-- C1 counterexample: the all-time pass does NOT sort files by earliest
timestamp — given the late-timestamp file first, it counts the 1000-token
late duplicate, while the claim's sorted-first-occurrence reading counts
the 150-token early duplicate (the sort demonstrably puts the early file
first). -/
theorem all_time_dedup_ignores_file_sorting :
    (load_claude_totals_from_files_all_time_with_pricing fromStrDup
        [[lineDupLate], [lineDupEarly]] []).total_tokens = 1000
    ∧ (claimAllTimeSorted chronoDup fromStrDup
        [[lineDupLate], [lineDupEarly]] []).total_tokens = 150
    ∧ sort_files_by_timestamp chronoDup fromStrDup
        [[lineDupLate], [lineDupEarly]] = [[lineDupEarly], [lineDupLate]] := by
  refine ⟨by decide, by decide, by decide⟩

/-- C1 amended: the ranged pass sorts the files ascending by each file's
earliest parseable timestamp (files without one last) and counts, among
the valid in-range entries in that order, only the first occurrence of
each non-empty `(message_id, request_id)` key; the all-time pass does the
same first-occurrence dedup but over the caller-supplied file order,
without sorting; in both passes entries missing either id are never
suppressed (the kept list preserves exactly the keyless entries). -/
theorem claude_dedup_first_occurrence :
    (∀ (c : Chrono) (fromStr : JsonParser) (files : List LogFile)
        (range : DateRange) (ds : PricingDataset) (since untl : Int),
      parse_yyyymmdd range.since_yyyymmdd = some since →
      parse_yyyymmdd range.until_yyyymmdd = some untl →
      load_claude_totals_from_files_with_pricing c fromStr files range ds =
        totalsFromEntries ds defaultTotals
          (firstOccurrences []
            (claudeEntriesRanged c fromStr since untl
              (sort_files_by_timestamp c fromStr files))))
    ∧ (∀ (fromStr : JsonParser) (files : List LogFile) (ds : PricingDataset),
        load_claude_totals_from_files_all_time_with_pricing fromStr files ds =
          totalsFromEntries ds defaultTotals
            (firstOccurrences [] (claudeEntries fromStr files)))
    ∧ (∀ (seen : List String) (l : List ClaudeUsageEntry),
        (firstOccurrences seen l).filter (fun e => (unique_hash e).isNone) =
          l.filter (fun e => (unique_hash e).isNone)) :=
  ⟨fun c fromStr files range ds since untl hs hu =>
      claude_ranged_char c fromStr files range ds since untl hs hu,
    fun fromStr files ds => claude_all_time_char fromStr files ds,
    fun seen l => firstOccurrences_filter_keyless seen l⟩

/-- The witness range 2026-02-06 .. 2026-02-06. -/
def rangeFeb6 : DateRange := ⟨"20260206", "20260206", "Today"⟩

theorem claude_dedup_first_occurrence_witness :
    parse_yyyymmdd "20260206" = some 20490
    ∧ load_claude_totals_from_files_with_pricing chronoDup fromStrDup
        [[lineDupLate], [lineDupEarly]] rangeFeb6 [] =
      totalsFromEntries [] defaultTotals
        (firstOccurrences []
          (claudeEntriesRanged chronoDup fromStrDup 20490 20490
            (sort_files_by_timestamp chronoDup fromStrDup
              [[lineDupLate], [lineDupEarly]]))) :=
  ⟨by decide,
    claude_dedup_first_occurrence.1 chronoDup fromStrDup
      [[lineDupLate], [lineDupEarly]] rangeFeb6 [] 20490 20490 (by decide)
      (by decide)⟩

/-! ## C5: concrete events for the range-filter claim (the theorem follows
the C10 section, whose concrete instances it also reuses) -/

/-- A chat-log line whose entry has an unparseable timestamp. -/
def lineBadTs : String := "bad \"usage\" x"

/-- The entry behind `lineBadTs`. -/
def jsonBadTs : Json :=
  .obj [("timestamp", .str "not-a-date"),
    ("message", .obj [("id", .str "m1"),
      ("usage", .obj [("input_tokens", .num (.uint 1)),
        ("output_tokens", .num (.uint 2))])]),
    ("requestId", .str "r1")]

/-- Concrete JSON parser for `lineBadTs`. -/
def fromStrBadTs : JsonParser :=
  fun s => if s = lineBadTs then some jsonBadTs else none

/-- The parsed form of `jsonBadTs`. -/
def entryBadTs : ClaudeUsageEntry :=
  ⟨"not-a-date", some "m1", some "r1", none, 1, 2, 0, 0, none⟩

/-- An exec-session `token_count` payload with a last-delta usage object. -/
def payloadCx : Json :=
  .obj [("type", .str "token_count"),
    ("info", .obj [("last_token_usage",
      .obj [("input_tokens", .num (.uint 1)),
        ("output_tokens", .num (.uint 2)),
        ("total_tokens", .num (.uint 3))])])]

/-- An exec-session line carrying `payloadCx` under an unparseable
timestamp. -/
def lineCxBad : String := "bad \"event_msg\" x"

/-- The envelope behind `lineCxBad`. -/
def jsonCxBad : Json :=
  .obj [("type", .str "event_msg"), ("payload", payloadCx),
    ("timestamp", .str "not-a-date")]

/-- Concrete JSON parser for `lineCxBad`. -/
def fromStrCxBad : JsonParser :=
  fun s => if s = lineCxBad then some jsonCxBad else none

/-- The delta reconstructed from `payloadCx`. -/
def deltaCx : DeltaUsage := ⟨1, 0, 2, 0, 3⟩

/-- The file state after processing `payloadCx` from the initial state. -/
def fsCx : CodexFileState := ⟨none, some "gpt-5", true⟩

/-! ## C10: range check precedes dedup recording -/

/-- C10: in the ranged chat-log pass the date-range check precedes the
dedupe-key recording — an entry whose local date is out of range leaves
the whole state (including the seen-key set) unchanged — and throughout
the pass the seen-key set is exactly the (reversed) list of keys of the
counted entries, the counted entries being the first occurrences of the
valid in-range entries. -/
theorem range_check_precedes_dedup_recording :
    (∀ (c : Chrono) (fromStr : JsonParser) (ds : PricingDataset)
        (since untl : Int) (st : ClaudeState) (line : String)
        (e : ClaudeUsageEntry),
      claudeLineEntry fromStr line = some e →
      date_in_range_local c e.timestamp since untl = false →
      claude_ranged_line_step c fromStr ds since untl st line = st)
    ∧ (∀ (c : Chrono) (fromStr : JsonParser) (ds : PricingDataset)
        (since untl : Int) (files : List LogFile),
      files.foldl
          (fun st file => (file : List String).foldl
            (claude_ranged_line_step c fromStr ds since untl) st)
          ⟨[], defaultTotals⟩ =
        ⟨((firstOccurrences []
            (claudeEntriesRanged c fromStr since untl files)).filterMap
              unique_hash).reverse,
          totalsFromEntries ds defaultTotals
            (firstOccurrences []
              (claudeEntriesRanged c fromStr since untl files))⟩) := by
  constructor
  · intro c fromStr ds since untl st line e he hd
    unfold claude_ranged_line_step claudeLineEntryRanged
    rw [he]
    dsimp only
    rw [hd]
    simp
  · intro c fromStr ds since untl files
    rw [claude_ranged_files_foldl, claudeEntryStep_foldl]
    simp

/-- Chrono primitives where instant 500 falls on local day 20489 and the
other instants on day 20490. -/
def chronoC10 : Chrono :=
  { parseRfc3339 := fun s =>
      if s = "TOut" then some 500 else if s = "TE" then some 1000 else none
    fromLocalDatetime := fun _ => .noResult
    parseNaiveDateTime := fun _ _ => none
    parseNaiveDate := fun _ _ => none
    utcToLocalDate := fun m => if m < 1000 then 20489 else 20490 }

/-- A line whose entry (key `m1:r1`) is dated outside the queried range. -/
def lineOutOfRange : String := "out \"usage\" x"

/-- A line whose entry has the same key but is dated inside the range. -/
def lineInRange : String := "in \"usage\" x"

/-- The out-of-range entry's JSON. -/
def jsonOutOfRange : Json :=
  .obj [("timestamp", .str "TOut"),
    ("message", .obj [("id", .str "m1"),
      ("usage", .obj [("input_tokens", .num (.uint 999)),
        ("output_tokens", .num (.uint 1))])]),
    ("requestId", .str "r1")]

/-- The in-range entry's JSON. -/
def jsonInRange : Json :=
  .obj [("timestamp", .str "TE"),
    ("message", .obj [("id", .str "m1"),
      ("usage", .obj [("input_tokens", .num (.uint 100)),
        ("output_tokens", .num (.uint 50))])]),
    ("requestId", .str "r1")]

/-- Concrete JSON parser for the two range lines. -/
def fromStrC10 : JsonParser :=
  fun s =>
    if s = lineOutOfRange then some jsonOutOfRange
    else if s = lineInRange then some jsonInRange
    else none

/-- The parsed out-of-range entry. -/
def entryOutOfRange : ClaudeUsageEntry :=
  ⟨"TOut", some "m1", some "r1", none, 999, 1, 0, 0, none⟩

theorem range_check_precedes_dedup_recording_witness :
    claude_ranged_line_step chronoC10 fromStrC10 [] 20490 20490
        ⟨[], defaultTotals⟩ lineOutOfRange = ⟨[], defaultTotals⟩
    ∧ [([lineOutOfRange, lineInRange] : LogFile)].foldl
        (fun st file => (file : List String).foldl
          (claude_ranged_line_step chronoC10 fromStrC10 [] 20490 20490) st)
        ⟨[], defaultTotals⟩ =
      ⟨((firstOccurrences []
          (claudeEntriesRanged chronoC10 fromStrC10 20490 20490
            [[lineOutOfRange, lineInRange]])).filterMap unique_hash).reverse,
        totalsFromEntries [] defaultTotals
          (firstOccurrences []
            (claudeEntriesRanged chronoC10 fromStrC10 20490 20490
              [[lineOutOfRange, lineInRange]]))⟩
    ∧ (load_claude_totals_from_files_with_pricing chronoC10 fromStrC10
        [[lineOutOfRange, lineInRange]] rangeFeb6 []).total_tokens = 150 :=
  ⟨range_check_precedes_dedup_recording.1 chronoC10 fromStrC10 [] 20490 20490
      ⟨[], defaultTotals⟩ lineOutOfRange entryOutOfRange rfl (by decide),
    range_check_precedes_dedup_recording.2 chronoC10 fromStrC10 [] 20490 20490
      [[lineOutOfRange, lineInRange]],
    by decide⟩

/-! ## C8: empty pricing mapping -/

theorem findSome?_dsGet_nil (l : List String) :
    l.findSome? (dsGet ([] : PricingDataset)) = none := by
  induction l with
  | nil => rfl
  | cons a rest ih => simp [List.findSome?_cons, dsGet, ih]

theorem find_model_pricing_nil (model : String) (prefixes : List String) :
    find_model_pricing [] model prefixes = none := by
  unfold find_model_pricing
  rw [findSome?_dsGet_nil]
  rfl

theorem addEntryTotals_nil_cost (t : UsageTotals) (e : ClaudeUsageEntry)
    (he : e.cost_usd = none) :
    (addEntryTotals [] t e).cost_usd = t.cost_usd := by
  unfold addEntryTotals
  rw [he]
  cases hm : e.model with
  | none => rfl
  | some m => simp [find_model_pricing_nil]

theorem totalsFromEntries_nil_cost (l : List ClaudeUsageEntry)
    (init : UsageTotals) (h : ∀ e ∈ l, e.cost_usd = none) :
    (totalsFromEntries [] init l).cost_usd = init.cost_usd := by
  induction l generalizing init with
  | nil => rfl
  | cons e rest ih =>
    unfold totalsFromEntries at ih ⊢
    rw [List.foldl_cons, ih _ (fun x hx => h x (List.mem_cons_of_mem e hx))]
    exact addEntryTotals_nil_cost init e (h e (List.mem_cons_self e rest))

theorem firstOccurrences_subset (seen : List String)
    (l : List ClaudeUsageEntry) : firstOccurrences seen l ⊆ l := by
  induction l generalizing seen with
  | nil => exact fun e he => he
  | cons e rest ih =>
    intro x hx
    unfold firstOccurrences at hx
    cases hh : unique_hash e with
    | none =>
      simp only [hh, List.mem_cons] at hx
      rcases hx with h | h
      · exact h ▸ List.mem_cons_self e rest
      · exact List.mem_cons_of_mem e (ih seen h)
    | some hsh =>
      simp only [hh] at hx
      by_cases hc : seen.contains hsh = true
      · rw [if_pos hc] at hx
        exact List.mem_cons_of_mem e (ih seen hx)
      · rw [if_neg hc] at hx
        simp only [List.mem_cons] at hx
        rcases hx with h | h
        · exact h ▸ List.mem_cons_self e rest
        · exact List.mem_cons_of_mem e (ih (hsh :: seen) h)

/-- A chat-log line carrying an explicit `costUSD` of `0.1`. -/
def lineCost : String := "cost \"usage\" x"

/-- Its entry: no model, explicit cost `0.1`. -/
def jsonCost : Json :=
  .obj [("timestamp", .str "t"),
    ("message", .obj [("id", .str "m1"),
      ("usage", .obj [("input_tokens", .num (.uint 100)),
        ("output_tokens", .num (.uint 50))])]),
    ("requestId", .str "r1"), ("costUSD", .num (.float (1 / 10)))]

/-- Concrete JSON parser for `lineCost`. -/
def fromStrCost : JsonParser :=
  fun s => if s = lineCost then some jsonCost else none

/-- The parsed form of `jsonCost`. -/
def entryCost : ClaudeUsageEntry :=
  ⟨"t", some "m1", some "r1", none, 100, 50, 0, 0, some (1 / 10)⟩

/-- C8 counterexample: with an EMPTY pricing mapping, a chat-log entry
carrying an explicit `costUSD` still contributes it — the all-time query
over one such entry returns `cost_usd = 0.1 ≠ 0`, so an empty mapping
does not disable cost computation entirely. -/
theorem empty_pricing_explicit_cost_counterexample :
    (load_claude_totals_from_files_all_time_with_pricing fromStrCost
        [[lineCost]] []).cost_usd = 1 / 10
    ∧ ((1 : ℚ) / 10 ≠ 0) := by
  constructor
  · rw [claude_all_time_char]
    have h : firstOccurrences [] (claudeEntries fromStrCost [[lineCost]]) =
        [entryCost] := rfl
    rw [h]
    unfold totalsFromEntries
    simp [addEntryTotals, entryCost, defaultTotals]
  · norm_num

/-- C8 amended: an empty pricing mapping disables all pricing-derived cost
(exec-session queries return `cost_usd = 0` unconditionally, and chat-log
queries return `cost_usd = 0` whenever no counted entry carries an
explicit `costUSD`), but chat-log entries with an explicit `costUSD`
still contribute it. -/
theorem empty_pricing_disables_pricing_costs :
    (∀ (c : Chrono) (fromStr : JsonParser) (files : List LogFile)
        (range : DateRange),
      (load_codex_totals_from_files_with_pricing c fromStr files range
        []).cost_usd = 0)
    ∧ (∀ (fromStr : JsonParser) (files : List LogFile),
      (load_codex_totals_from_files_all_time_with_pricing fromStr files
        []).cost_usd = 0)
    ∧ (∀ (fromStr : JsonParser) (files : List LogFile),
      (∀ e ∈ claudeEntries fromStr files, e.cost_usd = none) →
      (load_claude_totals_from_files_all_time_with_pricing fromStr files
        []).cost_usd = 0)
    ∧ (∀ (c : Chrono) (fromStr : JsonParser) (files : List LogFile)
        (range : DateRange) (since untl : Int),
      parse_yyyymmdd range.since_yyyymmdd = some since →
      parse_yyyymmdd range.until_yyyymmdd = some untl →
      (∀ e ∈ claudeEntriesRanged c fromStr since untl
        (sort_files_by_timestamp c fromStr files), e.cost_usd = none) →
      (load_claude_totals_from_files_with_pricing c fromStr files range
        []).cost_usd = 0) := by
  refine ⟨?_, ?_, ?_, ?_⟩
  · intro c fromStr files range
    unfold load_codex_totals_from_files_with_pricing
    cases parse_yyyymmdd range.since_yyyymmdd with
    | none => rfl
    | some since =>
      cases parse_yyyymmdd range.until_yyyymmdd with
      | none => rfl
      | some untl => simp [codexFinalize]
  · intro fromStr files
    unfold load_codex_totals_from_files_all_time_with_pricing
    simp [codexFinalize]
  · intro fromStr files h
    rw [claude_all_time_char]
    exact totalsFromEntries_nil_cost _ _
      (fun e he => h e (firstOccurrences_subset [] _ he))
  · intro c fromStr files range since untl hs hu h
    rw [claude_ranged_char c fromStr files range [] since untl hs hu]
    exact totalsFromEntries_nil_cost _ _
      (fun e he => h e (firstOccurrences_subset [] _ he))

theorem empty_pricing_disables_pricing_costs_witness :
    (load_claude_totals_from_files_all_time_with_pricing fromStrDup
        [[lineDupLate], [lineDupEarly]] []).cost_usd = 0
    ∧ (load_codex_totals_from_files_all_time_with_pricing fromStrCxBad
        [[lineCxBad]] []).cost_usd = 0 :=
  ⟨empty_pricing_disables_pricing_costs.2.2.1 fromStrDup
      [[lineDupLate], [lineDupEarly]]
      (by decide),
    empty_pricing_disables_pricing_costs.2.1 fromStrCxBad [[lineCxBad]]⟩

/-! ## C9: cost accumulator monotonicity -/

/-- A chat-log line carrying an explicit NEGATIVE `costUSD`. -/
def lineNegCost : String := "neg \"usage\" x"

/-- Its entry: explicit cost `-5`. -/
def jsonNegCost : Json :=
  .obj [("timestamp", .str "t"),
    ("message", .obj [("id", .str "m1"),
      ("usage", .obj [("input_tokens", .num (.uint 1)),
        ("output_tokens", .num (.uint 1))])]),
    ("requestId", .str "r1"), ("costUSD", .num (.float (-5)))]

/-- Concrete JSON parser for `lineNegCost`. -/
def fromStrNegCost : JsonParser :=
  fun s => if s = lineNegCost then some jsonNegCost else none

/-- The parsed form of `jsonNegCost`. -/
def entryNegCost : ClaudeUsageEntry :=
  ⟨"t", some "m1", some "r1", none, 1, 1, 0, 0, some (-5)⟩

/-- C9 counterexample: an entry whose explicit `costUSD` is `-5` DECREASES
the accumulated `cost_usd` (from `1` to `-4`), and a whole all-time pass
over that single entry ends at `-5 < 0`: the accumulator is not
monotonically increasing for arbitrary log contents. -/
theorem negative_cost_decreases_accumulator :
    (addEntryTotals [] ⟨0, 1⟩ entryNegCost).cost_usd < (1 : ℚ)
    ∧ (load_claude_totals_from_files_all_time_with_pricing fromStrNegCost
        [[lineNegCost]] []).cost_usd = -5 := by
  constructor
  · simp [addEntryTotals, entryNegCost]
  · rw [claude_all_time_char]
    have h : firstOccurrences []
        (claudeEntries fromStrNegCost [[lineNegCost]]) = [entryNegCost] := rfl
    rw [h]
    unfold totalsFromEntries
    simp [addEntryTotals, entryNegCost, defaultTotals]

/-- Non-negativity of every rate of a pricing record. -/
def PricingNonneg (p : LiteLLMModelPricing) : Prop :=
  (∀ q ∈ p.input_cost_per_token, 0 ≤ q)
  ∧ (∀ q ∈ p.output_cost_per_token, 0 ≤ q)
  ∧ (∀ q ∈ p.cache_creation_input_token_cost, 0 ≤ q)
  ∧ (∀ q ∈ p.cache_read_input_token_cost, 0 ≤ q)
  ∧ (∀ q ∈ p.input_cost_per_token_above_200k_tokens, 0 ≤ q)
  ∧ (∀ q ∈ p.output_cost_per_token_above_200k_tokens, 0 ≤ q)
  ∧ (∀ q ∈ p.cache_creation_input_token_cost_above_200k_tokens, 0 ≤ q)
  ∧ (∀ q ∈ p.cache_read_input_token_cost_above_200k_tokens, 0 ≤ q)

/-- Non-negativity of every rate in the dataset. -/
def DatasetNonneg (ds : PricingDataset) : Prop :=
  ∀ p ∈ ds, PricingNonneg p.2

theorem optGetD_nonneg (o : Option ℚ) (h : ∀ q ∈ o, 0 ≤ q) : 0 ≤ o.getD 0 := by
  cases o with
  | none => simp
  | some q => exact h q rfl

theorem tiered_cost_nonneg (t : Nat) (base above : Option ℚ)
    (hb : ∀ q ∈ base, 0 ≤ q) (ha : ∀ q ∈ above, 0 ≤ q) :
    0 ≤ tiered_cost t base above := by
  unfold tiered_cost
  by_cases h0 : t = 0
  · simp [h0]
  · rw [if_neg h0]
    by_cases ht : 200000 < t
    · rw [if_pos ht]
      cases above with
      | none =>
        exact mul_nonneg (optGetD_nonneg base hb) (Nat.cast_nonneg t)
      | some a =>
        have ha' : 0 ≤ a := ha a (Option.mem_def.mpr rfl)
        dsimp only
        cases base with
        | none =>
          exact mul_nonneg (Nat.cast_nonneg _) ha'
        | some b =>
          have hb' : 0 ≤ b := hb b (Option.mem_def.mpr rfl)
          dsimp only
          have h1 : (0 : ℚ) ≤ ((t - 200000 : Nat) : ℚ) * a :=
            mul_nonneg (Nat.cast_nonneg _) ha'
          have h2 : (0 : ℚ) ≤ (200000 : ℚ) * b :=
            mul_nonneg (by norm_num) hb'
          linarith
    · rw [if_neg ht]
      exact mul_nonneg (optGetD_nonneg base hb) (Nat.cast_nonneg t)

theorem calculate_claude_cost_nonneg (tokens : ClaudeTokens)
    (p : LiteLLMModelPricing) (hp : PricingNonneg p) :
    0 ≤ calculate_claude_cost_from_pricing tokens p := by
  obtain ⟨h1, h2, h3, h4, h5, h6, h7, h8⟩ := hp
  unfold calculate_claude_cost_from_pricing
  have t1 := tiered_cost_nonneg tokens.input_tokens _ _ h1 h5
  have t2 := tiered_cost_nonneg tokens.output_tokens _ _ h2 h6
  have t3 := tiered_cost_nonneg tokens.cache_creation_input_tokens _ _ h3 h7
  have t4 := tiered_cost_nonneg tokens.cache_read_input_tokens _ _ h4 h8
  dsimp only
  linarith

theorem findSome?_mem {α β : Type} (l : List α) (f : α → Option β) (b : β)
    (h : l.findSome? f = some b) : ∃ a ∈ l, f a = some b := by
  induction l with
  | nil => simp [List.findSome?] at h
  | cons x rest ih =>
    rw [List.findSome?_cons] at h
    cases hx : f x with
    | some y =>
      rw [hx] at h
      dsimp only at h
      exact ⟨x, List.mem_cons_self x rest, hx.trans h⟩
    | none =>
      rw [hx] at h
      dsimp only at h
      obtain ⟨a, ha, hfa⟩ := ih h
      exact ⟨a, List.mem_cons_of_mem x ha, hfa⟩

theorem find_model_pricing_mem (ds : PricingDataset) (model : String)
    (prefixes : List String) (p : LiteLLMModelPricing)
    (h : find_model_pricing ds model prefixes = some p) :
    ∃ k, (k, p) ∈ ds := by
  unfold find_model_pricing at h
  cases hf : (pricingCandidates model prefixes).findSome? (dsGet ds) with
  | some q =>
    rw [hf] at h
    obtain ⟨c, _, hc⟩ := findSome?_mem _ _ _ hf
    unfold dsGet at hc
    cases hfind : ds.find? (fun pr => pr.1 = c) with
    | none => rw [hfind] at hc; simp at hc
    | some pair =>
      rw [hfind] at hc
      simp at hc
      have hmem := List.mem_of_find?_eq_some hfind
      cases h
      refine ⟨pair.1, ?_⟩
      rw [← hc, Prod.mk.eta]
      exact hmem
  | none =>
    rw [hf] at h
    unfold substringScan at h
    obtain ⟨pair, hmem, hpair⟩ := findSome?_mem _ _ _ h
    by_cases hcond : (strContains (asciiLower pair.1) (asciiLower model)
        || strContains (asciiLower model) (asciiLower pair.1)) = true
    · rw [if_pos hcond] at hpair
      cases hpair
      refine ⟨pair.1, ?_⟩
      rw [Prod.mk.eta]
      exact hmem
    · rw [if_neg hcond] at hpair
      simp at hpair

theorem addEntryTotals_cost_mono (ds : PricingDataset) (t : UsageTotals)
    (e : ClaudeUsageEntry) (hds : DatasetNonneg ds)
    (hc : ∀ q ∈ e.cost_usd, 0 ≤ q) :
    t.cost_usd ≤ (addEntryTotals ds t e).cost_usd := by
  unfold addEntryTotals
  cases hco : e.cost_usd with
  | some c =>
    have hc0 : 0 ≤ c := hc c (Option.mem_def.mpr hco)
    dsimp only
    linarith
  | none =>
    dsimp only
    cases hm : e.model with
    | none =>
      dsimp only
      exact le_refl _
    | some m =>
      dsimp only
      cases hf : find_model_pricing ds m CLAUDE_PROVIDER_PREFIXES with
      | none =>
        dsimp only
        exact le_refl _
      | some p =>
        dsimp only
        obtain ⟨k, hk⟩ := find_model_pricing_mem ds m _ p hf
        have hp : PricingNonneg p := hds (k, p) hk
        have hcalc := calculate_claude_cost_nonneg
          ⟨e.input_tokens, e.output_tokens, e.cache_creation_input_tokens,
            e.cache_read_input_tokens⟩ p hp
        linarith

theorem claudeEntryStep_cost_mono (ds : PricingDataset) (st : ClaudeState)
    (e : ClaudeUsageEntry) (hds : DatasetNonneg ds)
    (hc : ∀ q ∈ e.cost_usd, 0 ≤ q) :
    st.totals.cost_usd ≤ (claudeEntryStep ds st e).totals.cost_usd := by
  unfold claudeEntryStep
  cases hh : unique_hash e with
  | none => exact addEntryTotals_cost_mono ds st.totals e hds hc
  | some h =>
    dsimp only
    split
    · exact le_refl _
    · exact addEntryTotals_cost_mono ds st.totals e hds hc

/-- C9 amended: within one aggregation pass the `cost_usd` accumulator is
monotone provided every counted entry's explicit `costUSD` (when present)
is non-negative and every rate of the pricing mapping is non-negative;
an entry with a negative explicit `costUSD` (possible, since the parser
accepts any float) can decrease it. -/
theorem cost_accumulator_monotone :
    (∀ (c : Chrono) (fromStr : JsonParser) (ds : PricingDataset)
        (since untl : Int) (st : ClaudeState) (line : String),
      DatasetNonneg ds →
      (∀ e, claudeLineEntry fromStr line = some e →
        ∀ q ∈ e.cost_usd, 0 ≤ q) →
      st.totals.cost_usd ≤
        (claude_ranged_line_step c fromStr ds since untl st line).totals.cost_usd)
    ∧ (∀ (fromStr : JsonParser) (ds : PricingDataset) (st : ClaudeState)
        (line : String),
      DatasetNonneg ds →
      (∀ e, claudeLineEntry fromStr line = some e →
        ∀ q ∈ e.cost_usd, 0 ≤ q) →
      st.totals.cost_usd ≤
        (claude_all_time_line_step fromStr ds st line).totals.cost_usd) := by
  constructor
  · intro c fromStr ds since untl st line hds hc
    unfold claude_ranged_line_step claudeLineEntryRanged
    cases hle : claudeLineEntry fromStr line with
    | none => exact le_refl _
    | some e =>
      dsimp only
      by_cases hd : date_in_range_local c e.timestamp since untl = true
      · rw [if_pos hd]
        exact claudeEntryStep_cost_mono ds st e hds (hc e hle)
      · rw [if_neg hd]
  · intro fromStr ds st line hds hc
    unfold claude_all_time_line_step
    cases hle : claudeLineEntry fromStr line with
    | none => exact le_refl _
    | some e => exact claudeEntryStep_cost_mono ds st e hds (hc e hle)

theorem cost_accumulator_monotone_witness :
    ((⟨[], ⟨0, 0⟩⟩ : ClaudeState)).totals.cost_usd ≤
      (claude_all_time_line_step fromStrCost [] ⟨[], ⟨0, 0⟩⟩
        lineCost).totals.cost_usd :=
  cost_accumulator_monotone.2 fromStrCost [] ⟨[], ⟨0, 0⟩⟩ lineCost
    (by intro p hp; simp at hp)
    (by
      intro e he q hq
      have h0 : claudeLineEntry fromStrCost lineCost = some entryCost := rfl
      rw [h0] at he
      cases he
      rw [Option.mem_def] at hq
      have h2 : some (1 / 10 : ℚ) = some q := hq
      have h3 : (1 / 10 : ℚ) = q := by injection h2
      rw [← h3]
      norm_num)

/-! ## C4: exec-session delta reconstruction -/

/-- The cumulative-snapshot event of the C4 example. -/
def lineCum : String := "cum \"event_msg\" x"

/-- `total_token_usage` snapshot `{input:1000, cached:200, output:500,
total:1500}`. -/
def jsonCum : Json :=
  .obj [("type", .str "event_msg"), ("timestamp", .str "T1"),
    ("payload", .obj [("type", .str "token_count"),
      ("info", .obj [("total_token_usage",
        .obj [("input_tokens", .num (.uint 1000)),
          ("cached_input_tokens", .num (.uint 200)),
          ("output_tokens", .num (.uint 500)),
          ("total_tokens", .num (.uint 1500))])])])]

/-- The last-delta event of the C4 example. -/
def lineDelta : String := "delta \"event_msg\" x"

/-- `last_token_usage` delta `{input:100, cached:9999, output:50,
total:150}`. -/
def jsonDelta : Json :=
  .obj [("type", .str "event_msg"), ("timestamp", .str "T2"),
    ("payload", .obj [("type", .str "token_count"),
      ("info", .obj [("last_token_usage",
        .obj [("input_tokens", .num (.uint 100)),
          ("cached_input_tokens", .num (.uint 9999)),
          ("output_tokens", .num (.uint 50)),
          ("total_tokens", .num (.uint 150))])])])]

/-- Concrete JSON parser for the two C4 events. -/
def fromStrC4 : JsonParser :=
  fun s =>
    if s = lineCum then some jsonCum
    else if s = lineDelta then some jsonDelta
    else none

/-- A non-empty dataset so that the per-model token map is maintained. -/
def datasetGpt5 : PricingDataset :=
  [("gpt-5", { input_cost_per_token := some (125 / 100000000)
               cache_read_input_token_cost := some (125 / 1000000000)
               output_cost_per_token := some (1 / 100000) })]

/-- C4: in the exec-session `token_count` core, whichever cumulative
snapshot is present becomes the new previous snapshot independently of
whether a last-delta was used; the counted delta is the last-delta object
when present, otherwise the saturating subtraction of the previous
cumulative snapshot from the current one (the full snapshot when no
previous exists), and an all-category-zero delta is discarded; cached
tokens are clamped to at most the input tokens; on the concrete
two-event example the combined total is 1650 and the second event's
cached tokens enter the per-model map clamped to 100 (cached 200 + 100 =
300). -/
theorem codex_delta_reconstruction :
    (∀ (fs : CodexFileState) (payload : Json),
      (codexTokenCountCore fs payload).1.previous_totals =
        match normalize_raw_usage
            (((payload.get "info").getD Json.null).get "total_token_usage") with
        | some t => some t
        | none => fs.previous_totals)
    ∧ (∀ (fs : CodexFileState) (payload : Json),
      ((codexTokenCountCore fs payload).2).map Prod.fst =
        match
          (match normalize_raw_usage
              (((payload.get "info").getD Json.null).get "last_token_usage") with
          | some l => some l
          | none =>
            (normalize_raw_usage
              (((payload.get "info").getD Json.null).get
                "total_token_usage")).map
              (fun t => subtract_raw_usage t fs.previous_totals)) with
        | none => none
        | some raw =>
          if (convert_to_delta raw).input_tokens = 0
              ∧ (convert_to_delta raw).cached_input_tokens = 0
              ∧ (convert_to_delta raw).output_tokens = 0
              ∧ (convert_to_delta raw).reasoning_output_tokens = 0 then none
          else some (convert_to_delta raw))
    ∧ (∀ t : RawUsage, subtract_raw_usage t none = t)
    ∧ (∀ raw : RawUsage,
      (convert_to_delta raw).cached_input_tokens =
        min raw.cached_input_tokens raw.input_tokens
      ∧ (convert_to_delta raw).cached_input_tokens ≤ raw.input_tokens)
    ∧ codexAllTimeAccum fromStrC4 [[lineCum, lineDelta]] datasetGpt5 =
        ⟨1650, [("gpt-5", ⟨1100, 300, 550⟩)]⟩ := by
  refine ⟨?_, ?_, ?_, ?_, by decide⟩
  · intro fs payload
    unfold codexTokenCountCore
    dsimp only
    cases hl : normalize_raw_usage
        (((payload.get "info").getD Json.null).get "last_token_usage") <;>
      cases ht : normalize_raw_usage
        (((payload.get "info").getD Json.null).get "total_token_usage") <;>
      dsimp only <;>
      split_ifs <;>
      first
      | rfl
      | (cases extract_model payload with
          | some em => rfl
          | none =>
            cases fs.current_model with
            | some cm => rfl
            | none => rfl)
  · intro fs payload
    unfold codexTokenCountCore
    dsimp only
    cases hl : normalize_raw_usage
        (((payload.get "info").getD Json.null).get "last_token_usage") <;>
      cases ht : normalize_raw_usage
        (((payload.get "info").getD Json.null).get "total_token_usage") <;>
      dsimp only [Option.map] <;>
      first
      | rfl
      | (split_ifs <;>
          first
          | rfl
          | (cases extract_model payload with
              | some em => rfl
              | none =>
                cases fs.current_model with
                | some cm => rfl
                | none => rfl))
  · intro t
    cases t
    rfl
  · intro raw
    exact ⟨rfl, min_le_right _ _⟩

/-! ## C5: ranged queries exclude unparseable and out-of-range events -/

/-- An exec-session line carrying `payloadCx` under the parseable but
out-of-range timestamp `TOut`. -/
def lineCxOut : String := "outr \"event_msg\" x"

/-- The envelope behind `lineCxOut`. -/
def jsonCxOut : Json :=
  .obj [("type", .str "event_msg"), ("payload", payloadCx),
    ("timestamp", .str "TOut")]

/-- Concrete JSON parser for `lineCxOut`. -/
def fromStrCxOut : JsonParser :=
  fun s => if s = lineCxOut then some jsonCxOut else none

/-- C5: for both sources, a ranged query excludes an event when its
timestamp fails to parse (or is missing, for exec sessions) or when its
derived local calendar date falls outside `[since, until]`, while the
all-time query over the same line includes it: both range filters reject
unparseable timestamps and parseable timestamps with an out-of-range
local date; the ranged chat-log loop leaves its state unchanged whenever
the range filter rejects the entry's timestamp, while the all-time loop
processes the entry regardless of its timestamp; the ranged exec-session
loop leaves its accumulator unchanged whenever the timestamp is missing
or the range filter rejects it, while the all-time loop counts the
event's delta. -/
theorem ranged_excludes_unparseable_or_out_of_range :
    (∀ (c : Chrono) (ts : String) (since untl : Int),
      parse_js_timestamp c ts = none →
      date_in_range_local c ts since untl = false
        ∧ parse_local_date_if_in_range c ts since untl = none)
    ∧ (∀ (c : Chrono) (ts : String) (since untl : Int) (p : ParsedTimestamp),
      parse_js_timestamp c ts = some p →
      (p.local_date < since ∨ untl < p.local_date) →
      date_in_range_local c ts since untl = false
        ∧ parse_local_date_if_in_range c ts since untl = none)
    ∧ (∀ (c : Chrono) (fromStr : JsonParser) (ds : PricingDataset)
        (since untl : Int) (st : ClaudeState) (line : String)
        (e : ClaudeUsageEntry),
      claudeLineEntry fromStr line = some e →
      date_in_range_local c e.timestamp since untl = false →
      claude_ranged_line_step c fromStr ds since untl st line = st)
    ∧ (∀ (fromStr : JsonParser) (ds : PricingDataset) (st : ClaudeState)
        (line : String) (e : ClaudeUsageEntry),
      claudeLineEntry fromStr line = some e →
      claude_all_time_line_step fromStr ds st line = claudeEntryStep ds st e)
    ∧ (∀ (c : Chrono) (fromStr : JsonParser) (ds : PricingDataset)
        (since untl : Int) (st : CodexFileState × CodexAccum) (line : String)
        (payload : Json) (tsOpt : Option String),
      codexLineView fromStr line = some ("event_msg", payload, tsOpt) →
      (tsOpt = none ∨ ∃ ts, tsOpt = some ts ∧
        parse_local_date_if_in_range c ts since untl = none) →
      (codex_ranged_line_step c fromStr ds since untl st line).2 = st.2)
    ∧ (∀ (fromStr : JsonParser) (ds : PricingDataset)
        (st : CodexFileState × CodexAccum) (line : String) (payload : Json)
        (tsOpt : Option String) (fs' : CodexFileState) (delta : DeltaUsage)
        (model : String),
      codexLineView fromStr line = some ("event_msg", payload, tsOpt) →
      (payload.get "type").bind Json.as_str = some "token_count" →
      codexTokenCountCore st.1 payload = (fs', some (delta, model)) →
      codex_all_time_line_step fromStr ds st line =
        (fs', codexAccAdd ds st.2 delta model)) := by
  refine ⟨?_, ?_, ?_, ?_, ?_, ?_⟩
  · intro c ts since untl hp
    constructor
    · unfold date_in_range_local
      rw [hp]
    · unfold parse_local_date_if_in_range
      rw [hp]
  · intro c ts since untl p hp hout
    constructor
    · unfold date_in_range_local
      rw [hp]
      simp only [decide_eq_false_iff_not]
      intro hcontra
      rcases hout with h | h <;> omega
    · unfold parse_local_date_if_in_range
      rw [hp]
      dsimp only
      rw [if_pos hout]
  · intro c fromStr ds since untl st line e he hd
    unfold claude_ranged_line_step claudeLineEntryRanged
    rw [he]
    dsimp only
    rw [hd]
    simp
  · intro fromStr ds st line e he
    unfold claude_all_time_line_step
    rw [he]
  · intro c fromStr ds since untl st line payload tsOpt hv hts
    unfold codex_ranged_line_step
    rw [hv]
    rcases hts with h | ⟨ts, hts, hr⟩
    · subst h
      simp
    · subst hts
      simp only []
      by_cases htc : (payload.get "type").bind Json.as_str = some "token_count"
      · simp only [htc]
        cases hcore : codexTokenCountCore st.1 payload with
        | mk fs' out =>
          cases out with
          | none => simp [hcore]
          | some dm => simp [hcore, hr]
      · simp [htc]
  · intro fromStr ds st line payload tsOpt fs' delta model hv htc hcore
    unfold codex_all_time_line_step
    rw [hv]
    simp [htc, hcore]

theorem ranged_excludes_unparseable_or_out_of_range_witness :
    claude_ranged_line_step chronoDup fromStrBadTs [] 20490 20490
        ⟨[], defaultTotals⟩ lineBadTs = ⟨[], defaultTotals⟩
    ∧ claude_ranged_line_step chronoC10 fromStrC10 [] 20490 20490
        ⟨[], defaultTotals⟩ lineOutOfRange = ⟨[], defaultTotals⟩
    ∧ claude_all_time_line_step fromStrBadTs [] ⟨[], defaultTotals⟩ lineBadTs =
        claudeEntryStep [] ⟨[], defaultTotals⟩ entryBadTs
    ∧ (codex_ranged_line_step chronoDup fromStrCxBad [] 20490 20490
        (initCodexFileState, ⟨0, []⟩) lineCxBad).2 = (⟨0, []⟩ : CodexAccum)
    ∧ (codex_ranged_line_step chronoC10 fromStrCxOut [] 20490 20490
        (initCodexFileState, ⟨0, []⟩) lineCxOut).2 = (⟨0, []⟩ : CodexAccum)
    ∧ codex_all_time_line_step fromStrCxBad [] (initCodexFileState, ⟨0, []⟩)
        lineCxBad = (fsCx, codexAccAdd [] ⟨0, []⟩ deltaCx "gpt-5") :=
  ⟨ranged_excludes_unparseable_or_out_of_range.2.2.1 chronoDup fromStrBadTs []
      20490 20490 ⟨[], defaultTotals⟩ lineBadTs entryBadTs rfl (by decide),
    ranged_excludes_unparseable_or_out_of_range.2.2.1 chronoC10 fromStrC10 []
      20490 20490 ⟨[], defaultTotals⟩ lineOutOfRange entryOutOfRange rfl
      (by decide),
    ranged_excludes_unparseable_or_out_of_range.2.2.2.1 fromStrBadTs []
      ⟨[], defaultTotals⟩ lineBadTs entryBadTs rfl,
    ranged_excludes_unparseable_or_out_of_range.2.2.2.2.1 chronoDup
      fromStrCxBad [] 20490 20490 (initCodexFileState, ⟨0, []⟩) lineCxBad
      payloadCx (some "not-a-date") rfl
      (Or.inr ⟨"not-a-date", rfl, by decide⟩),
    ranged_excludes_unparseable_or_out_of_range.2.2.2.2.1 chronoC10
      fromStrCxOut [] 20490 20490 (initCodexFileState, ⟨0, []⟩) lineCxOut
      payloadCx (some "TOut") rfl (Or.inr ⟨"TOut", rfl, by decide⟩),
    ranged_excludes_unparseable_or_out_of_range.2.2.2.2.2 fromStrCxBad []
      (initCodexFileState, ⟨0, []⟩) lineCxBad payloadCx (some "not-a-date")
      fsCx deltaCx "gpt-5" rfl rfl rfl⟩
